import Mathlib

/-!
Shallow embedding of the cosaf color-scheme adjustment core (TypeScript sources)
and proofs about its specification claims.

Conventions of the embedding:
* JavaScript numbers are modelled as `ℚ`; where `NaN`/`undefined` propagation is
  observable we use the explicit `JSNum`/`JSVal` types below.
* External collaborators (the iroay color service, the Voronoi partition service,
  the stlics solver) are parameters: their operations are fields of `ColorOps`,
  grid samplers are function arguments, and solver behaviour is an explicit
  argument of the `Adjuster` model.
* Class fields that the TypeScript declares without an initializer are `undefined`
  at run time; this is modelled with `JSVal.undefined`.
-/

set_option maxHeartbeats 1000000

/-- Model of a JavaScript value that can be `undefined`, `null`, or an actual value. -/
inductive JSVal (α : Type) where
  | undefined : JSVal α
  | null : JSVal α
  | value : α → JSVal α
deriving DecidableEq, Repr

/-- Model of a JavaScript number: either `NaN` or a finite value (as `ℚ`). -/
inductive JSNum where
  | nan : JSNum
  | num : ℚ → JSNum
deriving DecidableEq, Repr

/-- Coercion applied when a JavaScript value is used in arithmetic:
`undefined` coerces to `NaN`, `null` coerces to `0`. -/
def jsvalToNum (v : JSVal ℚ) : JSNum :=
  match v with
  | JSVal.undefined => JSNum.nan
  | JSVal.null => JSNum.num 0
  | JSVal.value q => JSNum.num q

/-- JavaScript multiplication: `NaN` propagates. -/
def jsMul (a b : JSNum) : JSNum :=
  match a, b with
  | JSNum.num x, JSNum.num y => JSNum.num (x * y)
  | _, _ => JSNum.nan

/-- JavaScript subtraction: `NaN` propagates. -/
def jsSub (a b : JSNum) : JSNum :=
  match a, b with
  | JSNum.num x, JSNum.num y => JSNum.num (x - y)
  | _, _ => JSNum.nan

/-- JavaScript division. `NaN` propagates. A zero divisor yields `±Infinity`
(or `NaN`) in JavaScript; infinities are not representable here so that corner
is mapped to `nan` — no theorem below evaluates a division by zero. -/
def jsDiv (a b : JSNum) : JSNum :=
  match a, b with
  | JSNum.num x, JSNum.num y => if y = 0 then JSNum.nan else JSNum.num (x / y)
  | _, _ => JSNum.nan

/-- `Math.min`: returns `NaN` if either argument is `NaN`. -/
def jsMin (a b : JSNum) : JSNum :=
  match a, b with
  | JSNum.num x, JSNum.num y => JSNum.num (min x y)
  | _, _ => JSNum.nan

/-- JavaScript `<` comparison: any comparison involving `NaN` is `false`. -/
def jsLt (a b : JSNum) : Bool :=
  match a, b with
  | JSNum.num x, JSNum.num y => decide (x < y)
  | _, _ => false

/-- JavaScript indexing `xs[i]`: `undefined` when out of range. -/
def jsIndex {α : Type} (vs : List α) (i : ℕ) : JSVal α :=
  match vs.get? i with
  | some v => JSVal.value v
  | none => JSVal.undefined

/-- Embedding of `class Candidates` (candidates.ts).
The field `#orig: Value;` has no initializer, so a fresh instance holds
`undefined` there; `#vs` is initialized to `[]`. -/
structure Candidates (α : Type) where
  orig : JSVal α
  vs : List α
deriving DecidableEq, Repr

/-- `new Candidates()`. -/
def Candidates.new {α : Type} : Candidates α := ⟨JSVal.undefined, []⟩

/-- `getOriginal()`: `if (this.#orig !== null) { return this.#orig; } return this.#vs[0];` -/
def Candidates.getOriginal {α : Type} [DecidableEq α] (c : Candidates α) : JSVal α :=
  if c.orig ≠ JSVal.null then c.orig else jsIndex c.vs 0

/-- `setOriginal(original)`. -/
def Candidates.setOriginal {α : Type} (c : Candidates α) (original : α) : Candidates α :=
  ⟨JSVal.value original, c.vs⟩

/-- `isOriginalAssigned()`: `return this.#orig !== null;` -/
def Candidates.isOriginalAssigned {α : Type} [DecidableEq α] (c : Candidates α) : Bool :=
  c.orig ≠ JSVal.null

/-- `values().push(v)` — factories append directly to the live list. -/
def Candidates.push {α : Type} (c : Candidates α) (v : α) : Candidates α :=
  ⟨c.orig, c.vs ++ [v]⟩

/-- Embedding of `enum Vision` (vision.ts), in its fixed enumeration order. -/
inductive Vision where
  | TRICHROMACY : Vision
  | PROTANOPIA : Vision
  | DEUTERANOPIA : Vision
  | MONOCHROMACY : Vision
deriving DecidableEq, Repr, Fintype

/-- Position of a vision in the source enumeration order. -/
def visionOrd : Vision → ℕ
  | Vision.TRICHROMACY => 0
  | Vision.PROTANOPIA => 1
  | Vision.DEUTERANOPIA => 2
  | Vision.MONOCHROMACY => 3

/-- A coordinate triplet (`type Triplet = [number, number, number]`). -/
structure Trip where
  x0 : ℚ
  x1 : ℚ
  x2 : ℚ
deriving DecidableEq, Repr

/-- The external color service operations used by the core, bundled as data.
`V` stands for the `Value` class; its color math (gamut test, Lab/tone
conversion, per-vision projection, perceptual distance, conspicuity, `Math.sqrt`)
belongs to the excluded collaborators, so the operations are parameters. -/
structure ColorOps (V : Type) where
  newInstance : Trip → Option V
  fromInt : ℤ → V
  asLab : V → Trip
  asTone : V → Trip
  visInt : V → Vision → ℤ
  diff : V → V → Vision → ℚ
  asConspicuity : V → ℚ
  sqrt : ℚ → ℚ

/-- Embedding of `class Scheme` (persistent fields only; derived data such as
combinations and the conspicuity array are recomputed by the functions below,
exactly as the constructor recomputes them). -/
structure Scheme (V : Type) where
  vals : List V
  ads : List (ℕ × ℕ)
  fixed : List Bool
  quality : ℚ
deriving DecidableEq, Repr

/-- `size()`. -/
def Scheme.size {V : Type} (s : Scheme V) : ℕ := s.vals.length

/-- `this.#vals[i]` (always used with a valid index in the source). -/
def Scheme.valAt {V : Type} [Inhabited V] (s : Scheme V) (i : ℕ) : V :=
  s.vals.getD i default

/-- `isFixed(idx)`. -/
def Scheme.isFixed {V : Type} (s : Scheme V) (i : ℕ) : Bool :=
  s.fixed.getD i false

/-- `getAdjacencies()` (returns a copy of the list). -/
def Scheme.getAdjacencies {V : Type} (s : Scheme V) : List (ℕ × ℕ) := s.ads

/-- `getDifference(idx0, idx1, vis)`. -/
def Scheme.getDifference {V : Type} [Inhabited V] (s : Scheme V) (ops : ColorOps V)
    (i j : ℕ) (vis : Vision) : ℚ :=
  ops.diff (s.valAt i) (s.valAt j) vis

/-- `Scheme.createAllAdjacencyList(size)`: all pairs `(i, j)` with `i < j`. -/
def Scheme.createAllAdjacencyList (size : ℕ) : List (ℕ × ℕ) :=
  (List.range size).flatMap
    (fun i => ((List.range size).filter (fun j => decide (i < j))).map (fun j => (i, j)))

/-- The `Scheme` constructor: colors from integers, default adjacency is the
complete graph, default fixed flags are all `false`. -/
def Scheme.mkNew {V : Type} (ops : ColorOps V) (colorInts : List ℤ)
    (adjacencies : Option (List (ℕ × ℕ))) (fixed : Option (List Bool))
    (quality : ℚ) : Scheme V :=
  let ads := match adjacencies with
    | none => Scheme.createAllAdjacencyList colorInts.length
    | some a => a
  let vals := colorInts.map ops.fromInt
  let fx := match fixed with
    | none => List.replicate vals.length false
    | some f => f
  ⟨vals, ads, fx, quality⟩

/-- Claim C1 (code bug). The spec and the method's own doc comment say
`getOriginal()` falls back to the first inserted candidate when `setOriginal`
was never called. In the code the uninitialized `#orig` field is `undefined`,
the guard `this.#orig !== null` is then `true`, and the undefined field itself
is returned — not the first candidate. -/
theorem C1_getOriginal_unset_returns_undefined :
    (Candidates.push (Candidates.new : Candidates ℕ) 7).getOriginal = JSVal.undefined ∧
    (Candidates.push (Candidates.new : Candidates ℕ) 7).getOriginal ≠ JSVal.value 7 ∧
    (Candidates.push (Candidates.new : Candidates ℕ) 7).isOriginalAssigned = true := by
  decide

/-- Configuration snapshot taken by the `RelationFactory1` constructor
(separation-target fields that no theorem needs are omitted). -/
structure RF1Cfg where
  doKeepHue : Bool
  hueTol : ℚ
  maxHueTol : ℚ
  doKeepTone : Bool
  toneTol : ℚ
  maxToneTol : ℚ
  doCheckConspicuity : Bool
  conspicuityRate : ℚ
  conspicuityArray : List ℚ
deriving DecidableEq, Repr

/-- `RelationFactory1.#p2s(idx, d, tol, maxTol)`. -/
def RelationFactory1.p2s (cfg : RF1Cfg) (idx : ℕ) (d tol maxTol : ℚ) : ℚ :=
  let tol := if cfg.doCheckConspicuity
    then tol * (1 - cfg.conspicuityRate * cfg.conspicuityArray.getD idx 0)
    else tol
  (maxTol - d) / (maxTol - tol)

/-- `RelationFactory1.preScale(idx, org, mod)`. Note the hue deviation here is
`Math.abs(m0 - o0)` with no circular wrap-around. -/
def RelationFactory1.preScale {V : Type} (ops : ColorOps V) (cfg : RF1Cfg)
    (idx : ℕ) (org cand : V) : ℚ :=
  if (!cfg.doKeepHue && !cfg.doKeepTone) then 1
  else
    let o := ops.asTone org
    let m := ops.asTone cand
    let sH := if cfg.doKeepHue
      then RelationFactory1.p2s cfg idx |m.x0 - o.x0| cfg.hueTol cfg.maxHueTol
      else 1024
    let sT := if cfg.doKeepTone
      then RelationFactory1.p2s cfg idx
        (ops.sqrt ((m.x1 - o.x1) * (m.x1 - o.x1) + (m.x2 - o.x2) * (m.x2 - o.x2)))
        cfg.toneTol cfg.maxToneTol
      else 1024
    min sH sT

/-- `DomainFactory2.MAX_DELTA_HUE` (PCCS standard). -/
def MAX_DELTA_HUE : ℚ := 12

/-- Configuration fields of `RelationFactory2` (ratio and maxDiff are handled
separately; the bottleneck index is irrelevant to the claims below). -/
structure RF2Cfg where
  doCheckP : Bool
  doCheckD : Bool
  doCheckM : Bool
  doKeepHue : Bool
  hueTol : ℚ
  maxHueD : ℚ
  doKeepTone : Bool
  toneTol : ℚ
  maxToneD : ℚ
deriving DecidableEq, Repr

/-- The `RelationFactory2` constructor's tolerance computations.
`MAX_DELTA_TONE = Math.sqrt(10*10 + 10*10)` is irrational, so the cap is the
parameter `maxDeltaTone`. -/
def RelationFactory2.mkCfg (doCheckP doCheckD doCheckM doPreserveHue doPreserveTone : Bool)
    (hueTolerance toneTolerance maxDeltaTone : ℚ) : RF2Cfg :=
  let hueTol := hueTolerance
  let maxHueD := min (hueTol * 2) MAX_DELTA_HUE
  let toneTol := toneTolerance
  let maxToneD := min (toneTol * 2) maxDeltaTone
  ⟨doCheckP, doCheckD, doCheckM, doPreserveHue, hueTol, maxHueD, doPreserveTone, toneTol, maxToneD⟩

/-- `RelationFactory2.preScale(org, mod)`: identical colors score 1 outright;
otherwise the hue deviation is wrapped circularly (`Math.min(d, 24 - d)`). -/
def RelationFactory2.preScale {V : Type} (ops : ColorOps V) (cfg : RF2Cfg)
    (org cand : V) : ℚ :=
  if ops.visInt org Vision.TRICHROMACY = ops.visInt cand Vision.TRICHROMACY then 1
  else if (!cfg.doKeepHue && !cfg.doKeepTone) then 1
  else
    let o := ops.asTone org
    let m := ops.asTone cand
    let sH := if cfg.doKeepHue
      then
        let d := |m.x0 - o.x0|
        let dd := min d (24 - d)
        1 - (dd - cfg.hueTol) / (cfg.maxHueD - cfg.hueTol)
      else 1024
    let sT := if cfg.doKeepTone
      then
        let d := ops.sqrt ((m.x1 - o.x1) * (m.x1 - o.x1) + (m.x2 - o.x2) * (m.x2 - o.x2))
        1 - (d - cfg.toneTol) / (cfg.maxToneD - cfg.toneTol)
      else 1024
    min sH sT

/-- Configuration fields of `RelationFactory3`. `toneTol` is a `JSNum` because
the constructor computes it from a field that is still `undefined` (see
`RelationFactory3.mkCfg`). -/
structure RF3Cfg where
  doCheckP : Bool
  doCheckD : Bool
  doCheckM : Bool
  doKeepHue : Bool
  hueTol : JSNum
  maxHueD : JSNum
  doKeepTone : Bool
  toneTol : JSNum
  maxToneD : ℚ
deriving DecidableEq, Repr

/-- The `RelationFactory3` constructor, assignments in source order:
`this.toneTol = Math.min(this.maxToneD * 2, DomainFactory2.MAX_DELTA_TONE);`
reads the field `maxToneD` *before* the next line assigns it, so the read
yields `undefined`, the product is `NaN`, and `Math.min` propagates the `NaN`.
As in `RelationFactory2.mkCfg`, the irrational cap is the parameter
`maxDeltaTone`. -/
def RelationFactory3.mkCfg (doCheckP doCheckD doCheckM doPreserveHue doPreserveTone : Bool)
    (hueTolerance toneTolerance maxDeltaTone : ℚ) : RF3Cfg :=
  let hueTol := JSNum.num hueTolerance
  let maxHueD := jsMin (jsMul hueTol (JSNum.num 2)) (JSNum.num MAX_DELTA_HUE)
  let maxToneDBeforeAssignment : JSVal ℚ := JSVal.undefined
  let toneTol := jsMin (jsMul (jsvalToNum maxToneDBeforeAssignment) (JSNum.num 2))
    (JSNum.num maxDeltaTone)
  let maxToneD := toneTolerance
  ⟨doCheckP, doCheckD, doCheckM, doPreserveHue, hueTol, maxHueD, doPreserveTone, toneTol, maxToneD⟩

/-- `RelationFactory3.preScale(org, mod)`. In the tone branch `maxToneD` plays
the tolerance role and `toneTol` the ceiling role (the constructor assigns them
that way). Arithmetic is on `JSNum` so the `NaN` in `toneTol` propagates as it
does in JavaScript. -/
def RelationFactory3.preScale {V : Type} (ops : ColorOps V) (cfg : RF3Cfg)
    (org cand : V) : JSNum :=
  if ops.visInt org Vision.TRICHROMACY = ops.visInt cand Vision.TRICHROMACY then JSNum.num 1
  else if (!cfg.doKeepHue && !cfg.doKeepTone) then JSNum.num 1
  else
    let o := ops.asTone org
    let m := ops.asTone cand
    let sH := if cfg.doKeepHue
      then
        let d := |m.x0 - o.x0|
        let dd := min d (24 - d)
        jsSub (JSNum.num 1) (jsDiv (jsSub (JSNum.num dd) cfg.hueTol) (jsSub cfg.maxHueD cfg.hueTol))
      else JSNum.num 1024
    let sT := if cfg.doKeepTone
      then
        let d := ops.sqrt ((m.x1 - o.x1) * (m.x1 - o.x1) + (m.x2 - o.x2) * (m.x2 - o.x2))
        jsSub (JSNum.num 1) (jsDiv (jsSub (JSNum.num d) (JSNum.num cfg.maxToneD)) (jsSub cfg.toneTol (JSNum.num cfg.maxToneD)))
      else JSNum.num 1024
    jsMin sH sT

/-- Configuration snapshot of the `DomainFactory1` constructor. -/
structure DF1Cfg where
  doPreserveHue : Bool
  doPreserveTone : Bool
  dHueMax : ℚ
  dToneMax : ℚ
  maxDiff : ℚ
deriving DecidableEq, Repr

/-- `DomainFactory1.#isCandidate(idx, cv, maxDiff)`: perceptual-distance cap,
then circular hue check, then squared tone check. -/
def DomainFactory1.isCandidate {V : Type} [Inhabited V] (ops : ColorOps V)
    (s : Scheme V) (cfg : DF1Cfg) (idx : ℕ) (cv : V) : Bool :=
  let d := ops.diff (s.valAt idx) cv Vision.TRICHROMACY
  if cfg.maxDiff < d then false
  else
    let org := ops.asTone (s.valAt idx)
    let can := ops.asTone cv
    if cfg.doPreserveHue &&
        (let a := |can.x0 - org.x0|
         decide (cfg.dHueMax < min a (24 - a))) then false
    else if cfg.doPreserveTone &&
        (let dt := (can.x1 - org.x1) * (can.x1 - org.x1) + (can.x2 - org.x2) * (can.x2 - org.x2)
         decide (cfg.dToneMax * cfg.dToneMax < dt)) then false
    else true

/-- Configuration snapshot of the `DomainFactory2` constructor (its `maxDiff`
is computed per slot from the adjacency table instead). -/
structure DF2Cfg where
  doPreserveHue : Bool
  doPreserveTone : Bool
  dHueMax : ℚ
  dToneMax : ℚ
deriving DecidableEq, Repr

/-- `DomainFactory2.#isCandidate(idx, cv, maxDiff)` — same three checks as
variant 1 with the per-slot cap passed in. -/
def DomainFactory2.isCandidate {V : Type} [Inhabited V] (ops : ColorOps V)
    (s : Scheme V) (cfg : DF2Cfg) (idx : ℕ) (cv : V) (maxDiff : ℚ) : Bool :=
  if maxDiff < ops.diff (s.valAt idx) cv Vision.TRICHROMACY then false
  else
    let org := ops.asTone (s.valAt idx)
    let can := ops.asTone cv
    if cfg.doPreserveHue &&
        (let a := |can.x0 - org.x0|
         decide (cfg.dHueMax < min a (24 - a))) then false
    else if cfg.doPreserveTone &&
        (let dt := (can.x1 - org.x1) * (can.x1 - org.x1) + (can.x2 - org.x2) * (can.x2 - org.x2)
         decide (cfg.dToneMax * cfg.dToneMax < dt)) then false
    else true

/-- Concrete color service used in the hue-circularity theorems: value 0 has
tone hue 23, value 1 has tone hue 1, distinct color integers, zero distances. -/
def hueOps : ColorOps ℕ :=
  ⟨fun _ => none,
   fun _ => 0,
   fun _ => ⟨0, 0, 0⟩,
   fun v => if v = 0 then ⟨23, 0, 0⟩ else ⟨1, 0, 0⟩,
   fun v _ => (v : ℤ),
   fun _ _ _ => 0,
   fun _ => 0,
   fun q => q⟩

/-- Default-parameter tolerances for `RelationFactory1`:
hue tolerance 1.75, hue maximum 3.5; tone preservation off; conspicuity off. -/
def rf1HueCfg : RF1Cfg := ⟨true, 7/4, 7/2, false, 2, 4, false, 1/2, []⟩

/-- Matching tolerances for `RelationFactory2`: hue tolerance 1.75,
ceiling `min(1.75 * 2, 12) = 3.5`; tone preservation off. -/
def rf2HueCfg : RF2Cfg := ⟨true, true, false, true, 7/4, 7/2, false, 2, 4⟩

/-- Matching tolerances for `RelationFactory3`. -/
def rf3HueCfg : RF3Cfg :=
  ⟨true, true, false, true, JSNum.num (7/4), JSNum.num (7/2), false, JSNum.nan, 2⟩

/-- Two-color scheme used for the domain-factory hue checks. -/
def hueScheme : Scheme ℕ := ⟨[0, 1], [(0, 1)], [false, false], 1⟩

/-- Domain-factory configurations with hue ceiling 3: a hue deviation scored
circularly as 2 passes, one scored as 22 would not. -/
def df1HueCfg : DF1Cfg := ⟨true, false, 3, 4, 100⟩

/-- Same hue ceiling for variant 2. -/
def df2HueCfg : DF2Cfg := ⟨true, false, 3, 4⟩

/-- Claim C2 (code bug). For hue coordinates 23 and 1 (true circular distance
2 on the 24-cycle): both domain factories' is-candidate filters and the
variant-2/3 preservation scores use the circular form — the candidate passes a
hue ceiling of 3, and the preservation scale equals the score of deviation 2.
`RelationFactory1.preScale`, however, uses the raw `Math.abs` deviation 22, so
its hue subscore is `(3.5 - 22)/(3.5 - 1.75) < 0` instead of the circular
`(3.5 - 2)/(3.5 - 1.75) = 6/7`. -/
theorem C2_rf1_hue_distance_not_circular :
    RelationFactory1.preScale hueOps rf1HueCfg 0 0 1 = (7/2 - 22) / (7/2 - 7/4) ∧
    (7/2 - 22) / (7/2 - 7/4) < (0 : ℚ) ∧
    RelationFactory1.preScale hueOps rf1HueCfg 0 0 1 ≠ (7/2 - 2) / (7/2 - 7/4) ∧
    RelationFactory2.preScale hueOps rf2HueCfg 0 1 = 1 - (2 - 7/4) / (7/2 - 7/4) ∧
    RelationFactory3.preScale hueOps rf3HueCfg 0 1 = JSNum.num (1 - (2 - 7/4) / (7/2 - 7/4)) ∧
    DomainFactory1.isCandidate hueOps hueScheme df1HueCfg 0 1 = true ∧
    DomainFactory2.isCandidate hueOps hueScheme df2HueCfg 0 1 100 = true := by
  refine ⟨?_, by norm_num, ?_, ?_, ?_, ?_, ?_⟩ <;>
    norm_num [RelationFactory1.preScale, RelationFactory2.preScale, RelationFactory3.preScale,
      RelationFactory1.p2s, DomainFactory1.isCandidate, DomainFactory2.isCandidate,
      hueOps, rf1HueCfg, rf2HueCfg, rf3HueCfg, hueScheme, df1HueCfg, df2HueCfg,
      Scheme.valAt, jsSub, jsDiv, jsMin, min_def, abs]

/-- Claim C8 (code bug). In `RelationFactory3` the tone ceiling `toneTol`
comes out as `NaN` (the constructor reads `this.maxToneD` before assigning it),
while `RelationFactory2` computes both ceilings as twice the configured
tolerance capped at the documented maximum, exactly as the claim states. -/
theorem C8_rf3_tone_ceiling_is_nan :
    (RelationFactory3.mkCfg true true false true true (7/4) 2 15).toneTol = JSNum.nan ∧
    (RelationFactory3.mkCfg true true false true true (7/4) 2 15).maxHueD
      = JSNum.num (min ((7/4) * 2) MAX_DELTA_HUE) ∧
    (RelationFactory2.mkCfg true true false true true (7/4) 2 15).maxToneD = min (2 * 2) 15 ∧
    (RelationFactory2.mkCfg true true false true true (7/4) 2 15).maxHueD
      = min ((7/4) * 2) MAX_DELTA_HUE := by
  refine ⟨?_, ?_, ?_, ?_⟩ <;>
    simp [RelationFactory3.mkCfg, RelationFactory2.mkCfg, jsMin, jsMul, jsvalToNum]

/-- `Number.MAX_VALUE` as an exact rational: `(2^53 - 1) * 2^971`. -/
def NUMBER_MAX_VALUE : ℚ := (2 ^ 53 - 1) * 2 ^ 971

/-- `Number.MIN_VALUE` as an exact rational: `2^-1074` (smallest positive double). -/
def NUMBER_MIN_VALUE : ℚ := 1 / 2 ^ 1074

/-- `Scheme.getConspicuityArray()`: a single pass tracks the running minimum
and maximum with `if (c < min) ... else if (max < c) ...`, then every score is
normalized by `(c - min) / (max - min)`. -/
def Scheme.getConspicuityArray {V : Type} (s : Scheme V) (ops : ColorOps V) : List ℚ :=
  let mm := s.vals.foldl
    (fun (mm : ℚ × ℚ) v =>
      let c := ops.asConspicuity v
      if c < mm.1 then (c, mm.2)
      else if mm.2 < c then (mm.1, c)
      else mm)
    (NUMBER_MAX_VALUE, NUMBER_MIN_VALUE)
  s.vals.map (fun v => (ops.asConspicuity v - mm.1) / (mm.2 - mm.1))

/-- Color service for the conspicuity counterexample: scores 5 and 2. -/
def conspOps : ColorOps ℕ :=
  ⟨fun _ => none,
   fun _ => 0,
   fun _ => ⟨0, 0, 0⟩,
   fun _ => ⟨0, 0, 0⟩,
   fun v _ => (v : ℤ),
   fun _ _ _ => 0,
   fun v => if v = 0 then 5 else 2,
   fun q => q⟩

/-- Two-slot scheme whose conspicuity scores are 5 (slot 0) then 2 (slot 1). -/
def conspScheme : Scheme ℕ := ⟨[0, 1], [(0, 1)], [false, false], 1⟩

/-- Claim C10 (code bug). With the maximum-conspicuity color first, the
first loop iteration takes the `c < min` branch and the `else if` skips the
maximum update, so `max` stays `Number.MIN_VALUE`; the maximum slot is then
mapped to `(5 - 2)/(Number.MIN_VALUE - 2) < 0` — outside `[0, 1]` and not 1 —
while the minimum slot still maps to 0. -/
theorem C10_conspicuity_array_not_normalized :
    (conspScheme.getConspicuityArray conspOps).getD 0 0
      = (5 - 2) / (NUMBER_MIN_VALUE - 2) ∧
    (conspScheme.getConspicuityArray conspOps).getD 0 0 < 0 ∧
    (conspScheme.getConspicuityArray conspOps).getD 0 0 ≠ 1 ∧
    (conspScheme.getConspicuityArray conspOps).getD 1 0 = 0 := by
  refine ⟨?_, ?_, ?_, ?_⟩
  · norm_num [Scheme.getConspicuityArray, conspScheme, conspOps, NUMBER_MAX_VALUE, NUMBER_MIN_VALUE]
  · norm_num [Scheme.getConspicuityArray, conspScheme, conspOps, NUMBER_MAX_VALUE, NUMBER_MIN_VALUE]
  · norm_num [Scheme.getConspicuityArray, conspScheme, conspOps, NUMBER_MAX_VALUE, NUMBER_MIN_VALUE]
  · norm_num [Scheme.getConspicuityArray, conspScheme, conspOps, NUMBER_MAX_VALUE, NUMBER_MIN_VALUE]

/-- One row of `getAdjacencyTable(omittedIndex)`: the neighbor list of node `i`
(pairs touching the omitted index are skipped entirely; note the `else if`, so
a self-pair contributes once). -/
def Scheme.getAdjTabRow {V : Type} (s : Scheme V) (omitted : ℤ) (i : ℕ) : List ℕ :=
  s.ads.foldl
    (fun rel p =>
      if ((p.1 : ℤ) = omitted ∨ (p.2 : ℤ) = omitted) then rel
      else if p.1 = i then rel ++ [p.2]
      else if p.2 = i then rel ++ [p.1]
      else rel)
    []

/-- `getAdjacencyTable(omittedIndex)`: one neighbor row per node. -/
def Scheme.getAdjacencyTable {V : Type} (s : Scheme V) (omitted : ℤ) : List (List ℕ) :=
  (List.range s.size).map (s.getAdjTabRow omitted)

/-- One slot of `DomainFactory1.build`: non-fixed slots collect the gamut-valid
grid samples passing the filter; a slot left empty (fixed, or nothing passed)
falls back to the slot's own current color when that is re-creatable. -/
def DomainFactory1.buildSlot {V : Type} [Inhabited V] (ops : ColorOps V)
    (s : Scheme V) (cfg : DF1Cfg) (grids : ℕ → List Trip) (i : ℕ) : Candidates V :=
  let cd : Candidates V := Candidates.new
  let cd := if s.isFixed i then cd
    else (grids i).foldl
      (fun cd c =>
        match ops.newInstance c with
        | none => cd
        | some cv => if DomainFactory1.isCandidate ops s cfg i cv then cd.push cv else cd)
      cd
  if cd.vs.length = 0 then
    match ops.newInstance (ops.asLab (s.valAt i)) with
    | none => cd
    | some cv => cd.push cv
  else cd

/-- `DomainFactory1.build(-1)`. -/
def DomainFactory1.build {V : Type} [Inhabited V] (ops : ColorOps V)
    (s : Scheme V) (cfg : DF1Cfg) (grids : ℕ → List Trip) : List (Candidates V) :=
  (List.range s.size).map (DomainFactory1.buildSlot ops s cfg grids)

/-- The `full` list collected alongside `cd` in `DomainFactory1.build(k)`:
every gamut-valid grid sample, unfiltered (empty for fixed slots because the
grid loop sits inside the `!isFixed` guard). -/
def DomainFactory1.fullOf {V : Type} (ops : ColorOps V) (s : Scheme V)
    (grids : ℕ → List Trip) (i : ℕ) : Candidates V :=
  if s.isFixed i then Candidates.new
  else ⟨JSVal.undefined, (grids i).filterMap ops.newInstance⟩

/-- `DomainFactory1.build(omitIdx)` for `omitIdx = k ≥ 0`: every slot except
`k` is built as usual, a running largest `full` list is kept, `null` is pushed
at position `k` and finally replaced by that `fullDom`. No `setOriginal` call
occurs anywhere in this method. -/
def DomainFactory1.buildOmit {V : Type} [Inhabited V] (ops : ColorOps V)
    (s : Scheme V) (cfg : DF1Cfg) (grids : ℕ → List Trip) (k : ℕ) :
    List (Option (Candidates V)) :=
  let acc := (List.range s.size).foldl
    (fun (acc : List (Option (Candidates V)) × Option (Candidates V)) i =>
      if i = k then (acc.1 ++ [none], acc.2)
      else
        let cd := DomainFactory1.buildSlot ops s cfg grids i
        let full := DomainFactory1.fullOf ops s grids i
        (acc.1 ++ [some cd],
         match acc.2 with
         | none => some full
         | some fd => if fd.vs.length < full.vs.length then some full else some fd))
    ([], none)
  acc.1.set k acc.2

/-- `DomainFactory2.#getMaxDiff(adjTab, idx)`: the largest trichromatic
distance from slot `idx` to its (table) neighbors. -/
def DomainFactory2.getMaxDiff {V : Type} [Inhabited V] (ops : ColorOps V)
    (s : Scheme V) (adjTab : List (List ℕ)) (idx : ℕ) : ℚ :=
  (adjTab.getD idx []).foldl
    (fun mx i =>
      let d := s.getDifference ops idx i Vision.TRICHROMACY
      if mx < d then d else mx)
    0

/-- One slot of `DomainFactory2.build` with the grid passed in (the omit branch
samples the grid before the fixed check). -/
def DomainFactory2.buildSlotG {V : Type} [Inhabited V] (ops : ColorOps V)
    (s : Scheme V) (cfg : DF2Cfg) (adjTab : List (List ℕ)) (grid : List Trip)
    (i : ℕ) : Candidates V :=
  let cd : Candidates V := Candidates.new
  let cd := if s.isFixed i then cd
    else
      let maxDiff := DomainFactory2.getMaxDiff ops s adjTab i
      grid.foldl
        (fun cd c =>
          match ops.newInstance c with
          | none => cd
          | some cv => if DomainFactory2.isCandidate ops s cfg i cv maxDiff then cd.push cv else cd)
        cd
  if cd.vs.length = 0 then
    match ops.newInstance (ops.asLab (s.valAt i)) with
    | none => cd
    | some cv => cd.push cv
  else cd

/-- `DomainFactory2.build(-1)`. -/
def DomainFactory2.build {V : Type} [Inhabited V] (ops : ColorOps V)
    (s : Scheme V) (cfg : DF2Cfg) (grids : ℤ → List Trip) : List (Candidates V) :=
  let adjTab := s.getAdjacencyTable (-1)
  (List.range s.size).map
    (fun (i : ℕ) => DomainFactory2.buildSlotG ops s cfg adjTab (grids (i : ℤ)) i)

/-- `DomainFactory2.#createFullDomain(idx, vp)`: all gamut-valid samples of the
cell of `idx`, in a fresh `Candidates`. -/
def DomainFactory2.createFullDomain {V : Type} (ops : ColorOps V)
    (grids : ℤ → List Trip) (idx : ℤ) : Candidates V :=
  ⟨JSVal.undefined, (grids idx).filterMap ops.newInstance⟩

/-- `DomainFactory2.build(omitIdx)` for `omitIdx = k ≥ 0`: like the `-1` branch
for every other slot while tracking the index with the largest raw grid, then
slot `k` receives `#createFullDomain(fullDomIndex)` and — unlike variant 1 —
`setOriginal(Value.newInstance(currentColor.asLab()) as Value)` is called on
it (storing JavaScript `null` if that recreation is out of gamut). -/
def DomainFactory2.buildOmit {V : Type} [Inhabited V] (ops : ColorOps V)
    (s : Scheme V) (cfg : DF2Cfg) (grids : ℤ → List Trip) (k : ℕ) :
    List (Option (Candidates V)) :=
  let adjTab := s.getAdjacencyTable (k : ℤ)
  let acc := (List.range s.size).foldl
    (fun (acc : List (Option (Candidates V)) × ℕ × ℤ) i =>
      if i = k then (acc.1 ++ [none], acc.2)
      else
        let grid := grids (i : ℤ)
        let cd := DomainFactory2.buildSlotG ops s cfg adjTab grid i
        (acc.1 ++ [some cd],
         if acc.2.1 < grid.length then (grid.length, (i : ℤ)) else acc.2))
    ([], 0, -1)
  let full := DomainFactory2.createFullDomain ops grids acc.2.2
  let full : Candidates V :=
    ⟨(match ops.newInstance (ops.asLab (s.valAt k)) with
      | some v => JSVal.value v
      | none => JSVal.null),
     full.vs⟩
  acc.1.set k (some full)

/-- Color service for the variant-1 omit-slot counterexample: `newInstance`
reconstructs a value from the first coordinate, distances are all zero. -/
def cexOps : ColorOps ℕ :=
  ⟨fun t => some t.x0.num.toNat,
   fun _ => 0,
   fun _ => ⟨0, 0, 0⟩,
   fun _ => ⟨0, 0, 0⟩,
   fun v _ => (v : ℤ),
   fun _ _ _ => 0,
   fun _ => 0,
   fun q => q⟩

/-- Two-slot scheme with current colors 10 and 20, nothing fixed. -/
def cexScheme : Scheme ℕ := ⟨[10, 20], [(0, 1)], [false, false], 1⟩

/-- Domain configuration with preservation off and a generous cap. -/
def cexDF1Cfg : DF1Cfg := ⟨false, false, 3, 4, 100⟩

/-- Grid sampler: slot 1 has the single sample `(5, 0, 0)`. -/
def cexGrids : ℕ → List Trip := fun i => if i = 1 then [⟨5, 0, 0⟩] else []

/-- Claim C3, counterexample. In `DomainFactory1.build(0)` on a two-slot
scheme, slot 0 receives the `full` sample set of slot 1 and no `setOriginal`
call ever happens: the returned entry is `⟨undefined, [5]⟩`, whose
`getOriginal()` is the undefined field — not the scheme's current color 10 at
slot 0, and no original was explicitly set. -/
theorem C3_df1_full_domain_original_not_set :
    (DomainFactory1.buildOmit cexOps cexScheme cexDF1Cfg cexGrids 0).getD 0 none
      = some (⟨JSVal.undefined, [5]⟩ : Candidates ℕ) ∧
    Candidates.getOriginal (⟨JSVal.undefined, [5]⟩ : Candidates ℕ) = JSVal.undefined ∧
    Candidates.getOriginal (⟨JSVal.undefined, [5]⟩ : Candidates ℕ) ≠ JSVal.value 10 := by
  decide

/-- The filtered sample list of slot `i` in `DomainFactory1`: gamut-valid grid
samples passing the is-candidate filter, in grid order. -/
def DomainFactory1.filtered {V : Type} [Inhabited V] (ops : ColorOps V)
    (s : Scheme V) (cfg : DF1Cfg) (grids : ℕ → List Trip) (i : ℕ) : List V :=
  (grids i).filterMap (fun c =>
    match ops.newInstance c with
    | none => none
    | some cv => if DomainFactory1.isCandidate ops s cfg i cv then some cv else none)

/-- The filtered sample list of slot `i` in `DomainFactory2` (grid explicit). -/
def DomainFactory2.filteredG {V : Type} [Inhabited V] (ops : ColorOps V)
    (s : Scheme V) (cfg : DF2Cfg) (adjTab : List (List ℕ)) (grid : List Trip)
    (i : ℕ) : List V :=
  grid.filterMap (fun c =>
    match ops.newInstance c with
    | none => none
    | some cv =>
      if DomainFactory2.isCandidate ops s cfg i cv (DomainFactory2.getMaxDiff ops s adjTab i)
      then some cv else none)

lemma foldl_push_filterMap {V : Type} (f : Trip → Option V) (g : V → Bool) :
    ∀ (l : List Trip) (cd : Candidates V),
      l.foldl
        (fun cd c =>
          match f c with
          | none => cd
          | some cv => if g cv then cd.push cv else cd)
        cd
      = ⟨cd.orig, cd.vs ++ l.filterMap (fun c =>
          match f c with
          | none => none
          | some cv => if g cv then some cv else none)⟩ := by
  intro l
  induction l with
  | nil => intro cd; simp
  | cons c l ih =>
    intro cd
    simp only [List.foldl_cons, List.filterMap_cons]
    cases hfc : f c with
    | none => rw [ih]
    | some cv =>
      by_cases hg : g cv
      · simp only [hg, if_pos, if_true]
        rw [ih]
        simp [Candidates.push]
      · simp only [hg, if_neg, if_false]
        rw [ih]
        simp [hg]

lemma df1_buildSlot_fallback {V : Type} [Inhabited V] (ops : ColorOps V) (s : Scheme V)
    (cfg : DF1Cfg) (grids : ℕ → List Trip) (i : ℕ)
    (h : s.isFixed i = true ∨ DomainFactory1.filtered ops s cfg grids i = []) :
    DomainFactory1.buildSlot ops s cfg grids i =
      (match ops.newInstance (ops.asLab (s.valAt i)) with
       | none => Candidates.new
       | some cv => Candidates.push Candidates.new cv) := by
  unfold DomainFactory1.buildSlot
  rcases h with hf | he
  · simp [hf, Candidates.new]
  · by_cases hf : s.isFixed i = true
    · simp [hf, Candidates.new]
    · simp only [hf, if_false, Bool.false_eq_true]
      rw [foldl_push_filterMap (ops.newInstance)
        (fun cv => DomainFactory1.isCandidate ops s cfg i cv)]
      have he' : ((grids i).filterMap (fun c =>
          match ops.newInstance c with
          | none => none
          | some cv => if DomainFactory1.isCandidate ops s cfg i cv then some cv else none)) = [] := he
      simp [Candidates.new, he']

lemma df1_buildSlot_normal {V : Type} [Inhabited V] (ops : ColorOps V) (s : Scheme V)
    (cfg : DF1Cfg) (grids : ℕ → List Trip) (i : ℕ)
    (hf : ¬ s.isFixed i = true)
    (he : ¬ DomainFactory1.filtered ops s cfg grids i = []) :
    DomainFactory1.buildSlot ops s cfg grids i =
      ⟨JSVal.undefined, DomainFactory1.filtered ops s cfg grids i⟩ := by
  unfold DomainFactory1.buildSlot
  simp only [hf, if_false, Bool.false_eq_true]
  rw [foldl_push_filterMap (ops.newInstance)
    (fun cv => DomainFactory1.isCandidate ops s cfg i cv)]
  have he' : ¬ ((grids i).filterMap (fun c =>
      match ops.newInstance c with
      | none => none
      | some cv => if DomainFactory1.isCandidate ops s cfg i cv then some cv else none)) = [] := he
  simp only [Candidates.new, List.nil_append]
  rw [if_neg]
  · rfl
  · simpa [List.length_eq_zero] using he'

lemma df2_buildSlotG_fallback {V : Type} [Inhabited V] (ops : ColorOps V) (s : Scheme V)
    (cfg : DF2Cfg) (adjTab : List (List ℕ)) (grid : List Trip) (i : ℕ)
    (h : s.isFixed i = true ∨ DomainFactory2.filteredG ops s cfg adjTab grid i = []) :
    DomainFactory2.buildSlotG ops s cfg adjTab grid i =
      (match ops.newInstance (ops.asLab (s.valAt i)) with
       | none => Candidates.new
       | some cv => Candidates.push Candidates.new cv) := by
  unfold DomainFactory2.buildSlotG
  rcases h with hf | he
  · simp [hf, Candidates.new]
  · by_cases hf : s.isFixed i = true
    · simp [hf, Candidates.new]
    · simp only [hf, if_false, Bool.false_eq_true]
      rw [foldl_push_filterMap (ops.newInstance)
        (fun cv => DomainFactory2.isCandidate ops s cfg i cv (DomainFactory2.getMaxDiff ops s adjTab i))]
      have he' : (grid.filterMap (fun c =>
          match ops.newInstance c with
          | none => none
          | some cv =>
            if DomainFactory2.isCandidate ops s cfg i cv (DomainFactory2.getMaxDiff ops s adjTab i)
            then some cv else none)) = [] := he
      simp [Candidates.new, he']

lemma df2_buildSlotG_normal {V : Type} [Inhabited V] (ops : ColorOps V) (s : Scheme V)
    (cfg : DF2Cfg) (adjTab : List (List ℕ)) (grid : List Trip) (i : ℕ)
    (hf : ¬ s.isFixed i = true)
    (he : ¬ DomainFactory2.filteredG ops s cfg adjTab grid i = []) :
    DomainFactory2.buildSlotG ops s cfg adjTab grid i =
      ⟨JSVal.undefined, DomainFactory2.filteredG ops s cfg adjTab grid i⟩ := by
  unfold DomainFactory2.buildSlotG
  simp only [hf, if_false, Bool.false_eq_true]
  rw [foldl_push_filterMap (ops.newInstance)
    (fun cv => DomainFactory2.isCandidate ops s cfg i cv (DomainFactory2.getMaxDiff ops s adjTab i))]
  have he' : ¬ (grid.filterMap (fun c =>
      match ops.newInstance c with
      | none => none
      | some cv =>
        if DomainFactory2.isCandidate ops s cfg i cv (DomainFactory2.getMaxDiff ops s adjTab i)
        then some cv else none)) = [] := he
  simp only [Candidates.new, List.nil_append]
  rw [if_neg]
  · rfl
  · simpa [List.length_eq_zero] using he'

lemma getD_map_range {β : Type} (f : ℕ → β) (n i : ℕ) (h : i < n) (d : β) :
    ((List.range n).map f).getD i d = f i := by
  rw [List.getD_eq_getElem?_getD]
  rw [List.getElem?_map]
  rw [List.getElem?_range h]
  rfl

/-- Claim C4 (confirmed). Whenever the fallback re-creation of each slot's
current color is in gamut (which holds for scheme colors, since they originate
from RGB integers), `build(-1)` of both factory variants returns one
`Candidates` per slot, none with an empty list; a slot that is fixed or whose
filtered sample set is empty gets exactly the singleton of its re-created
current color. -/
theorem C4_build_never_empty {V : Type} [Inhabited V] (ops : ColorOps V) (s : Scheme V)
    (cfg1 : DF1Cfg) (cfg2 : DF2Cfg) (grids1 : ℕ → List Trip) (grids2 : ℤ → List Trip)
    (hgam : ∀ i, i < s.size → (ops.newInstance (ops.asLab (s.valAt i))).isSome = true) :
    (DomainFactory1.build ops s cfg1 grids1).length = s.size
    ∧ (DomainFactory2.build ops s cfg2 grids2).length = s.size
    ∧ (∀ i, i < s.size →
        ((DomainFactory1.build ops s cfg1 grids1).getD i Candidates.new).vs ≠ []
        ∧ ((DomainFactory2.build ops s cfg2 grids2).getD i Candidates.new).vs ≠ [])
    ∧ (∀ i v, i < s.size → ops.newInstance (ops.asLab (s.valAt i)) = some v →
        ((s.isFixed i = true ∨ DomainFactory1.filtered ops s cfg1 grids1 i = []) →
          ((DomainFactory1.build ops s cfg1 grids1).getD i Candidates.new).vs = [v])
        ∧ ((s.isFixed i = true ∨
              DomainFactory2.filteredG ops s cfg2 (s.getAdjacencyTable (-1)) (grids2 (i : ℤ)) i = []) →
          ((DomainFactory2.build ops s cfg2 grids2).getD i Candidates.new).vs = [v])) := by
  have hget1 : ∀ i, i < s.size → (DomainFactory1.build ops s cfg1 grids1).getD i Candidates.new
      = DomainFactory1.buildSlot ops s cfg1 grids1 i := by
    intro i hi
    unfold DomainFactory1.build
    exact getD_map_range _ _ _ hi _
  have hget2 : ∀ i, i < s.size → (DomainFactory2.build ops s cfg2 grids2).getD i Candidates.new
      = DomainFactory2.buildSlotG ops s cfg2 (s.getAdjacencyTable (-1)) (grids2 (i : ℤ)) i := by
    intro i hi
    unfold DomainFactory2.build
    simpa using getD_map_range
      (fun (j : ℕ) => DomainFactory2.buildSlotG ops s cfg2 (s.getAdjacencyTable (-1)) (grids2 (j : ℤ)) j)
      s.size i hi Candidates.new
  refine ⟨by simp [DomainFactory1.build], by simp [DomainFactory2.build], ?_, ?_⟩
  · intro i hi
    obtain ⟨v, hv⟩ := Option.isSome_iff_exists.mp (hgam i hi)
    constructor
    · rw [hget1 i hi]
      by_cases hc : s.isFixed i = true ∨ DomainFactory1.filtered ops s cfg1 grids1 i = []
      · rw [df1_buildSlot_fallback ops s cfg1 grids1 i hc, hv]
        simp [Candidates.push, Candidates.new]
      · push_neg at hc
        rw [df1_buildSlot_normal ops s cfg1 grids1 i hc.1 hc.2]
        simpa using hc.2
    · rw [hget2 i hi]
      by_cases hc : s.isFixed i = true ∨
          DomainFactory2.filteredG ops s cfg2 (s.getAdjacencyTable (-1)) (grids2 (i : ℤ)) i = []
      · rw [df2_buildSlotG_fallback ops s cfg2 _ _ i hc, hv]
        simp [Candidates.push, Candidates.new]
      · push_neg at hc
        rw [df2_buildSlotG_normal ops s cfg2 _ _ i hc.1 hc.2]
        simpa using hc.2
  · intro i v hi hv
    constructor
    · intro hc
      rw [hget1 i hi, df1_buildSlot_fallback ops s cfg1 grids1 i hc, hv]
      simp [Candidates.push, Candidates.new]
    · intro hc
      rw [hget2 i hi, df2_buildSlotG_fallback ops s cfg2 _ _ i hc, hv]
      simp [Candidates.push, Candidates.new]

/-- Domain configuration for the C4 witness. -/
def c4DF2Cfg : DF2Cfg := ⟨false, false, 3, 4⟩

/-- Grid sampler for the C4 witness (all cells empty). -/
def c4Grids2 : ℤ → List Trip := fun _ => []

/-- Witness for C4 at a concrete two-slot scheme: the gamut hypothesis holds
and the theorem applies. -/
theorem C4_build_never_empty_witness :
    (∀ i, i < cexScheme.size →
      (cexOps.newInstance (cexOps.asLab (cexScheme.valAt i))).isSome = true) ∧
    ((DomainFactory1.build cexOps cexScheme cexDF1Cfg cexGrids).length = cexScheme.size
    ∧ (DomainFactory2.build cexOps cexScheme c4DF2Cfg c4Grids2).length = cexScheme.size
    ∧ (∀ i, i < cexScheme.size →
        ((DomainFactory1.build cexOps cexScheme cexDF1Cfg cexGrids).getD i Candidates.new).vs ≠ []
        ∧ ((DomainFactory2.build cexOps cexScheme c4DF2Cfg c4Grids2).getD i Candidates.new).vs ≠ [])
    ∧ (∀ i v, i < cexScheme.size →
        cexOps.newInstance (cexOps.asLab (cexScheme.valAt i)) = some v →
        ((cexScheme.isFixed i = true ∨
            DomainFactory1.filtered cexOps cexScheme cexDF1Cfg cexGrids i = []) →
          ((DomainFactory1.build cexOps cexScheme cexDF1Cfg cexGrids).getD i Candidates.new).vs = [v])
        ∧ ((cexScheme.isFixed i = true ∨
              DomainFactory2.filteredG cexOps cexScheme c4DF2Cfg
                (cexScheme.getAdjacencyTable (-1)) (c4Grids2 (i : ℤ)) i = []) →
          ((DomainFactory2.build cexOps cexScheme c4DF2Cfg c4Grids2).getD i Candidates.new).vs = [v]))) :=
  ⟨by decide,
   C4_build_never_empty cexOps cexScheme cexDF1Cfg c4DF2Cfg cexGrids c4Grids2 (by decide)⟩

lemma foldl_split {β γ : Type} (step : (List β × γ) → ℕ → (List β × γ))
    (F : ℕ → β) (G : γ → ℕ → γ)
    (h : ∀ a c i, step (a, c) i = (a ++ [F i], G c i)) :
    ∀ (l : List ℕ) (a : List β) (c : γ),
      l.foldl step (a, c) = (a ++ l.map F, l.foldl G c) := by
  intro l
  induction l with
  | nil => intro a c; simp
  | cons x l ih =>
    intro a c
    simp only [List.foldl_cons, h, List.map_cons]
    rw [ih]
    simp

lemma getD_set_self {β : Type} (l : List β) (k : ℕ) (x : β) (d : β) (h : k < l.length) :
    (l.set k x).getD k d = x := by
  induction l generalizing k with
  | nil => simp at h
  | cons y l ih =>
    cases k with
    | zero => simp
    | succ k => simpa using ih k (by simpa using h)

/-- The running `fullDom` update of `DomainFactory1.build(k)`, as a fold step. -/
def df1FullStep {V : Type} (ops : ColorOps V) (s : Scheme V) (grids : ℕ → List Trip)
    (k : ℕ) (c : Option (Candidates V)) (i : ℕ) : Option (Candidates V) :=
  if i = k then c
  else
    match c with
    | none => some (DomainFactory1.fullOf ops s grids i)
    | some fd =>
      if fd.vs.length < (DomainFactory1.fullOf ops s grids i).vs.length
      then some (DomainFactory1.fullOf ops s grids i) else some fd

lemma df1_buildOmit_eq {V : Type} [Inhabited V] (ops : ColorOps V) (s : Scheme V)
    (cfg : DF1Cfg) (grids : ℕ → List Trip) (k : ℕ) :
    DomainFactory1.buildOmit ops s cfg grids k =
      ((List.range s.size).map
        (fun i => if i = k then none else some (DomainFactory1.buildSlot ops s cfg grids i))).set k
        ((List.range s.size).foldl (df1FullStep ops s grids k) none) := by
  have hstep : ∀ (a : List (Option (Candidates V))) (c : Option (Candidates V)) (i : ℕ),
      (fun (acc : List (Option (Candidates V)) × Option (Candidates V)) i =>
        if i = k then (acc.1 ++ [none], acc.2)
        else
          let cd := DomainFactory1.buildSlot ops s cfg grids i
          let full := DomainFactory1.fullOf ops s grids i
          (acc.1 ++ [some cd],
           match acc.2 with
           | none => some full
           | some fd => if fd.vs.length < full.vs.length then some full else some fd)) (a, c) i
      = (a ++ [if i = k then none else some (DomainFactory1.buildSlot ops s cfg grids i)],
         df1FullStep ops s grids k c i) := by
    intro a c i
    by_cases hik : i = k <;> simp [hik, df1FullStep]
  unfold DomainFactory1.buildOmit
  rw [foldl_split _ _ _ hstep (List.range s.size) [] none]
  simp

lemma df1FullStep_preserves_some {V : Type} (ops : ColorOps V) (s : Scheme V)
    (grids : ℕ → List Trip) (k : ℕ) :
    ∀ (l : List ℕ) (c : Option (Candidates V)), c ≠ none →
      l.foldl (df1FullStep ops s grids k) c ≠ none := by
  intro l
  induction l with
  | nil => intro c hc; simpa using hc
  | cons x l ih =>
    intro c hc
    rw [List.foldl_cons]
    apply ih
    unfold df1FullStep
    by_cases hik : x = k
    · simpa [hik] using hc
    · cases c with
      | none => simp at hc
      | some fd =>
        simp only [hik, if_neg, if_false]
        split <;> simp

lemma df1FullDom_isSome {V : Type} (ops : ColorOps V) (s : Scheme V)
    (grids : ℕ → List Trip) (k : ℕ) :
    ∀ (l : List ℕ) (c : Option (Candidates V)),
      (∃ i ∈ l, i ≠ k) ∨ c ≠ none →
      l.foldl (df1FullStep ops s grids k) c ≠ none := by
  intro l
  induction l with
  | nil =>
    intro c hc
    rcases hc with ⟨i, hi, _⟩ | hc
    · simp at hi
    · simpa using hc
  | cons x l ih =>
    intro c hc
    rw [List.foldl_cons]
    by_cases hxk : x = k
    · apply ih
      rcases hc with ⟨i, hi, hik⟩ | hc
      · rcases List.mem_cons.mp hi with rfl | hi
        · exact absurd hxk hik
        · exact Or.inl ⟨i, hi, hik⟩
      · right
        unfold df1FullStep
        simpa [hxk] using hc
    · apply ih
      right
      unfold df1FullStep
      cases c with
      | none => simp [hxk]
      | some fd =>
        simp only [hxk, if_neg, if_false]
        split <;> simp

lemma df1FullDom_orig {V : Type} (ops : ColorOps V) (s : Scheme V)
    (grids : ℕ → List Trip) (k : ℕ) :
    ∀ (l : List ℕ) (c : Option (Candidates V)),
      (∀ cd, c = some cd → cd.orig = JSVal.undefined) →
      (∀ cd, l.foldl (df1FullStep ops s grids k) c = some cd → cd.orig = JSVal.undefined) := by
  intro l
  induction l with
  | nil => intro c hc; simpa using hc
  | cons x l ih =>
    intro c hc
    rw [List.foldl_cons]
    apply ih
    intro cd hcd
    unfold df1FullStep at hcd
    by_cases hxk : x = k
    · exact hc cd (by simpa [hxk] using hcd)
    · have horig : (DomainFactory1.fullOf ops s grids x).orig = JSVal.undefined := by
        unfold DomainFactory1.fullOf
        split <;> rfl
      cases c with
      | none =>
        simp only [hxk, if_neg, if_false] at hcd
        obtain rfl : DomainFactory1.fullOf ops s grids x = cd := by
          simpa using hcd
        exact horig
      | some fd =>
        simp only [hxk, if_neg, if_false] at hcd
        rcases ite_eq_iff.mp hcd with ⟨_, h2⟩ | ⟨_, h2⟩
        · obtain rfl : DomainFactory1.fullOf ops s grids x = cd := by
            simpa using h2
          exact horig
        · obtain rfl : fd = cd := by simpa using h2
          exact hc fd rfl

/-- The running largest-grid tracker of `DomainFactory2.build(k)`, as a fold step. -/
def df2FullStep (grids : ℤ → List Trip) (k : ℕ) (c : ℕ × ℤ) (i : ℕ) : ℕ × ℤ :=
  if i = k then c
  else if c.1 < (grids (i : ℤ)).length then ((grids (i : ℤ)).length, (i : ℤ)) else c

lemma df2_buildOmit_eq {V : Type} [Inhabited V] (ops : ColorOps V) (s : Scheme V)
    (cfg : DF2Cfg) (grids : ℤ → List Trip) (k : ℕ) :
    DomainFactory2.buildOmit ops s cfg grids k =
      (((List.range s.size).map
        (fun i => if i = k then none
          else some (DomainFactory2.buildSlotG ops s cfg (s.getAdjacencyTable (k : ℤ)) (grids (i : ℤ)) i))).set k
        (some ⟨(match ops.newInstance (ops.asLab (s.valAt k)) with
                | some v => JSVal.value v
                | none => JSVal.null),
               (DomainFactory2.createFullDomain ops grids
                 ((List.range s.size).foldl (df2FullStep grids k) (0, -1)).2).vs⟩)) := by
  have hstep : ∀ (a : List (Option (Candidates V))) (c : ℕ × ℤ) (i : ℕ),
      (fun (acc : List (Option (Candidates V)) × ℕ × ℤ) i =>
        if i = k then (acc.1 ++ [none], acc.2)
        else
          let grid := grids (i : ℤ)
          let cd := DomainFactory2.buildSlotG ops s cfg (s.getAdjacencyTable (k : ℤ)) grid i
          (acc.1 ++ [some cd],
           if acc.2.1 < grid.length then (grid.length, (i : ℤ)) else acc.2)) (a, c) i
      = (a ++ [if i = k then none
            else some (DomainFactory2.buildSlotG ops s cfg (s.getAdjacencyTable (k : ℤ)) (grids (i : ℤ)) i)],
         df2FullStep grids k c i) := by
    intro a c i
    by_cases hik : i = k <;> simp [hik, df2FullStep]
  simp only [DomainFactory2.buildOmit]
  rw [foldl_split _ _ _ hstep (List.range s.size) [] (0, -1)]
  simp

/-- Claim C3, amended (see the counterexample above for the original claim):
only `DomainFactory2.build(k)` explicitly sets slot `k`'s original — to the
`Value` re-created from the current color at `k` (so `getOriginal()` yields it
whenever that re-creation is in gamut). `DomainFactory1.build(k)` never calls
`setOriginal` on the full-domain entry at `k`: its `orig` field stays the
uninitialized `undefined`, which is also what `getOriginal()` returns. -/
theorem C3_amended_omit_slot_originals {V : Type} [Inhabited V] [DecidableEq V]
    (ops : ColorOps V) (s : Scheme V) (cfg1 : DF1Cfg) (cfg2 : DF2Cfg)
    (grids1 : ℕ → List Trip) (grids2 : ℤ → List Trip) (k : ℕ) (hk : k < s.size) :
    (2 ≤ s.size →
      ∃ cd, (DomainFactory1.buildOmit ops s cfg1 grids1 k).getD k none = some cd
        ∧ cd.orig = JSVal.undefined ∧ cd.getOriginal = JSVal.undefined)
    ∧ (∀ v, ops.newInstance (ops.asLab (s.valAt k)) = some v →
      ∃ cd, (DomainFactory2.buildOmit ops s cfg2 grids2 k).getD k none = some cd
        ∧ cd.orig = JSVal.value v ∧ cd.getOriginal = JSVal.value v
        ∧ cd.isOriginalAssigned = true) := by
  constructor
  · intro hsize
    rw [df1_buildOmit_eq]
    rw [getD_set_self _ _ _ _ (by simpa using hk)]
    have hex : ∃ i ∈ List.range s.size, i ≠ k := by
      by_cases hk0 : k = 0
      · exact ⟨1, List.mem_range.mpr (by omega), by omega⟩
      · exact ⟨0, List.mem_range.mpr (by omega), hk0 ∘ Eq.symm ∘ Eq.symm ∘ Eq.symm⟩
    have hne := df1FullDom_isSome ops s grids1 k (List.range s.size) none (Or.inl hex)
    cases hfd : (List.range s.size).foldl (df1FullStep ops s grids1 k) none with
    | none => exact absurd hfd hne
    | some cd =>
      have horig : cd.orig = JSVal.undefined :=
        df1FullDom_orig ops s grids1 k (List.range s.size) none (by simp) cd hfd
      exact ⟨cd, rfl, horig, by simp [Candidates.getOriginal, horig]⟩
  · intro v hv
    rw [df2_buildOmit_eq]
    rw [getD_set_self _ _ _ _ (by simpa using hk)]
    refine ⟨_, rfl, ?_, ?_, ?_⟩
    · simp [hv]
    · simp [Candidates.getOriginal, hv]
    · simp [Candidates.isOriginalAssigned, hv]

/-- Witness for the amended C3 at the concrete two-slot scheme. -/
theorem C3_amended_omit_slot_originals_witness :
    ((0 : ℕ) < cexScheme.size ∧ 2 ≤ cexScheme.size
      ∧ cexOps.newInstance (cexOps.asLab (cexScheme.valAt 0)) = some 0) ∧
    ((2 ≤ cexScheme.size →
      ∃ cd, (DomainFactory1.buildOmit cexOps cexScheme cexDF1Cfg cexGrids 0).getD 0 none = some cd
        ∧ cd.orig = JSVal.undefined ∧ cd.getOriginal = JSVal.undefined)
    ∧ (∀ v, cexOps.newInstance (cexOps.asLab (cexScheme.valAt 0)) = some v →
      ∃ cd, (DomainFactory2.buildOmit cexOps cexScheme c4DF2Cfg c4Grids2 0).getD 0 none = some cd
        ∧ cd.orig = JSVal.value v ∧ cd.getOriginal = JSVal.value v
        ∧ cd.isOriginalAssigned = true)) :=
  ⟨by decide,
   C3_amended_omit_slot_originals cexOps cexScheme cexDF1Cfg c4DF2Cfg cexGrids c4Grids2 0 (by decide)⟩

/-- In-order run of all adjuster listeners on a proposed scheme, threading an
abstract listener state `σ` (listeners may have side effects) and collecting
each returned boolean. -/
def Adjuster.runListeners {V σ : Type} (als : List (σ → Scheme V → Bool × σ))
    (st : σ) (proposed : Scheme V) : List Bool × σ :=
  match als with
  | [] => ([], st)
  | al :: als =>
    let bs := al st proposed
    let rest := Adjuster.runListeners als bs.2 proposed
    (bs.1 :: rest.1, rest.2)

/-- `Adjuster.#notifyResult(solution, worstDegree)`: translate the assignment
to color integers, build a fresh `Scheme` (original adjacencies, `null` fixed
flags, quality = `worstDegree`), start `finish` at `worstDegree > 0.999`, then
run every listener, OR-ing its result in without short-circuiting. The external
assignment is the function `solution`; `cans` are the solve's domains. -/
def Adjuster.notifyResult {V σ : Type} [Inhabited V] (ops : ColorOps V)
    (org : Scheme V) (cans : List (Candidates V))
    (als : List (σ → Scheme V → Bool × σ))
    (solution : ℕ → ℕ) (worstDegree : ℚ) (st : σ) : Scheme V × Bool × σ :=
  let res : List ℤ := (List.range org.size).map
    (fun i => ops.visInt (((cans.getD i Candidates.new).vs).getD (solution i) default) Vision.TRICHROMACY)
  let proposed := Scheme.mkNew ops res (some org.getAdjacencies) none worstDegree
  let finish := decide ((999 : ℚ)/1000 < worstDegree)
  let fs := als.foldl
    (fun (acc : Bool × σ) al =>
      let bs := al acc.2 proposed
      (if bs.1 then true else acc.1, bs.2))
    (finish, st)
  (proposed, fs.1, fs.2)

lemma runListeners_cons {V σ : Type} (proposed : Scheme V)
    (al : σ → Scheme V → Bool × σ) (als : List (σ → Scheme V → Bool × σ)) (st : σ) :
    Adjuster.runListeners (al :: als) st proposed
      = ((al st proposed).1 :: (Adjuster.runListeners als (al st proposed).2 proposed).1,
         (Adjuster.runListeners als (al st proposed).2 proposed).2) := rfl

lemma notify_fold_spec {V σ : Type} (proposed : Scheme V) :
    ∀ (als : List (σ → Scheme V → Bool × σ)) (b : Bool) (st : σ),
      als.foldl
        (fun (acc : Bool × σ) al =>
          let bs := al acc.2 proposed
          (if bs.1 then true else acc.1, bs.2))
        (b, st)
      = ((b || (Adjuster.runListeners als st proposed).1.any id),
         (Adjuster.runListeners als st proposed).2) := by
  intro als
  induction als with
  | nil => intro b st; simp [Adjuster.runListeners]
  | cons al als ih =>
    intro b st
    simp only [List.foldl_cons]
    rw [ih]
    rw [runListeners_cons]
    simp only [List.any_cons]
    cases (al st proposed).1 <;> cases b <;> simp

/-- Claim C6 (confirmed). On each reported solution, the proposed scheme
carries over the original adjacencies, has all-false fixed flags and quality
equal to that solution's worst degree; the returned stop flag is exactly
`worstDegree > 0.999 OR (some listener returned true)`; and the final listener
state is that of running every listener in registration order — no listener is
skipped, whatever the earlier results. -/
theorem C6_notifyResult_semantics {V σ : Type} [Inhabited V] :
    ∀ (ops : ColorOps V) (org : Scheme V) (cans : List (Candidates V))
      (als : List (σ → Scheme V → Bool × σ)) (solution : ℕ → ℕ)
      (worstDegree : ℚ) (st : σ),
      ((Adjuster.notifyResult ops org cans als solution worstDegree st).1).ads = org.ads
      ∧ ((Adjuster.notifyResult ops org cans als solution worstDegree st).1).fixed
          = List.replicate org.size false
      ∧ ((Adjuster.notifyResult ops org cans als solution worstDegree st).1).quality = worstDegree
      ∧ (Adjuster.notifyResult ops org cans als solution worstDegree st).2.2
          = (Adjuster.runListeners als st
              ((Adjuster.notifyResult ops org cans als solution worstDegree st).1)).2
      ∧ (Adjuster.notifyResult ops org cans als solution worstDegree st).2.1
          = (decide ((999 : ℚ)/1000 < worstDegree)
             || ((Adjuster.runListeners als st
                  ((Adjuster.notifyResult ops org cans als solution worstDegree st).1)).1).any id) := by
  intro ops org cans als solution worstDegree st
  simp only [Adjuster.notifyResult, notify_fold_spec]
  simp [Scheme.mkNew, Scheme.getAdjacencies, Scheme.size]

/-- The candidate scan inside `RelationFactory2.#updateRatioToTrichromacy`:
over the cross product of both sides\' fully-preserved candidates, the maximum
of the average enabled non-trichromatic distance. -/
def RelationFactory2.scanMaxDiff {V : Type} (ops : ColorOps V) (cfg : RF2Cfg)
    (orig0 orig1 : V) (vs0 vs1 : List V) : ℚ :=
  vs0.foldl
    (fun maxDiff v0 =>
      if RelationFactory2.preScale ops cfg orig0 v0 < 1 then maxDiff
      else vs1.foldl
        (fun maxDiff v1 =>
          if RelationFactory2.preScale ops cfg orig1 v1 < 1 then maxDiff
          else
            let sum := (if cfg.doCheckP then ops.diff v0 v1 Vision.PROTANOPIA else 0)
                     + (if cfg.doCheckD then ops.diff v0 v1 Vision.DEUTERANOPIA else 0)
                     + (if cfg.doCheckM then ops.diff v0 v1 Vision.MONOCHROMACY else 0)
            let dv := (if cfg.doCheckP then (1 : ℚ) else 0)
                    + (if cfg.doCheckD then (1 : ℚ) else 0)
                    + (if cfg.doCheckM then (1 : ℚ) else 0)
            let d := sum / dv
            if maxDiff < d then d else maxDiff)
        maxDiff)
    (0 : ℚ)

/-- `RelationFactory2.#updateRatioToTrichromacy(cans0, cans1)`: divide the
scanned maximum by the originals\' trichromatic distance and lower the stored
ratio only when the result is strictly smaller. The `getOriginal()` calls must
produce actual values (a JS `TypeError` aborts the call otherwise — modelled
as `none`). JavaScript float division is modelled on `ℚ`. -/
def RelationFactory2.updateRatioToTrichromacy {V : Type} [DecidableEq V]
    (ops : ColorOps V) (cfg : RF2Cfg) (ratio : ℚ) (cans0 cans1 : Candidates V) :
    Option ℚ :=
  match cans0.getOriginal, cans1.getOriginal with
  | JSVal.value orig0, JSVal.value orig1 =>
    let maxDiff := RelationFactory2.scanMaxDiff ops cfg orig0 orig1 cans0.vs cans1.vs
    let r := maxDiff / ops.diff orig0 orig1 Vision.TRICHROMACY
    some (if r < ratio then r else ratio)
  | _, _ => none

/-- The ratio after a sequence of relation creations in one `adjust()` call
(variant 2); a crashed update aborts the whole run. -/
def RelationFactory2.ratioAfter {V : Type} [DecidableEq V] (ops : ColorOps V)
    (cfg : RF2Cfg) (steps : List (Candidates V × Candidates V)) (init : ℚ) :
    Option ℚ :=
  steps.foldl
    (fun r? st => r?.bind
      (fun r => RelationFactory2.updateRatioToTrichromacy ops cfg r st.1 st.2))
    (some init)

/-- The three stored ratios of `RelationFactory3` (`ratioToTriP/D/M`). -/
structure RF3Ratios where
  rP : ℚ
  rD : ℚ
  rM : ℚ
deriving DecidableEq, Repr

/-- The candidate scan inside `RelationFactory3.#updateRatioToTrichromacy`:
a separate maximum per enabled vision. The fully-preserved test uses
JavaScript `<`, so a `NaN` preservation score does not skip a candidate. -/
def RelationFactory3.scanMaxDiffs {V : Type} (ops : ColorOps V) (cfg : RF3Cfg)
    (orig0 orig1 : V) (vs0 vs1 : List V) : ℚ × ℚ × ℚ :=
  vs0.foldl
    (fun (acc : ℚ × ℚ × ℚ) v0 =>
      if jsLt (RelationFactory3.preScale ops cfg orig0 v0) (JSNum.num 1) then acc
      else vs1.foldl
        (fun (acc : ℚ × ℚ × ℚ) v1 =>
          if jsLt (RelationFactory3.preScale ops cfg orig1 v1) (JSNum.num 1) then acc
          else
            let acc := if cfg.doCheckP then
                (let d := ops.diff v0 v1 Vision.PROTANOPIA
                 if acc.1 < d then (d, acc.2) else acc)
              else acc
            let acc := if cfg.doCheckD then
                (let d := ops.diff v0 v1 Vision.DEUTERANOPIA
                 if acc.2.1 < d then (acc.1, d, acc.2.2) else acc)
              else acc
            if cfg.doCheckM then
                (let d := ops.diff v0 v1 Vision.MONOCHROMACY
                 if acc.2.2 < d then (acc.1, acc.2.1, d) else acc)
              else acc)
        acc)
    ((0 : ℚ), (0 : ℚ), (0 : ℚ))

/-- `RelationFactory3.#updateRatioToTrichromacy(cans0, cans1)`: each of the
three ratios is lowered independently, again only by a strictly smaller
value. -/
def RelationFactory3.updateRatioToTrichromacy {V : Type} [DecidableEq V]
    (ops : ColorOps V) (cfg : RF3Cfg) (st : RF3Ratios) (cans0 cans1 : Candidates V) :
    Option RF3Ratios :=
  match cans0.getOriginal, cans1.getOriginal with
  | JSVal.value orig0, JSVal.value orig1 =>
    let acc := RelationFactory3.scanMaxDiffs ops cfg orig0 orig1 cans0.vs cans1.vs
    let od := ops.diff orig0 orig1 Vision.TRICHROMACY
    let rP := acc.1 / od
    let rD := acc.2.1 / od
    let rM := acc.2.2 / od
    some ⟨if rP < st.rP then rP else st.rP,
          if rD < st.rD then rD else st.rD,
          if rM < st.rM then rM else st.rM⟩
  | _, _ => none

/-- The ratios after a sequence of relation creations (variant 3). -/
def RelationFactory3.ratiosAfter {V : Type} [DecidableEq V] (ops : ColorOps V)
    (cfg : RF3Cfg) (steps : List (Candidates V × Candidates V)) (init : RF3Ratios) :
    Option RF3Ratios :=
  steps.foldl
    (fun r? st => r?.bind
      (fun r => RelationFactory3.updateRatioToTrichromacy ops cfg r st.1 st.2))
    (some init)

lemma foldl_bind_none {α β : Type} (f : β → α → Option α) :
    ∀ (l : List β),
      l.foldl (fun r? st => r?.bind (fun r => f st r)) (none : Option α) = none := by
  intro l
  induction l with
  | nil => rfl
  | cons x l ih => simpa using ih

lemma foldl_bind_le {α β : Type} (f : β → α → Option α) (le : α → α → Prop)
    (hrefl : ∀ a, le a a) (htrans : ∀ a b c, le a b → le b c → le a c)
    (hstep : ∀ st a b, f st a = some b → le b a) :
    ∀ (l : List β) (x r : α),
      l.foldl (fun r? st => r?.bind (fun r => f st r)) (some x) = some r → le r x := by
  intro l
  induction l with
  | nil =>
    intro x r h
    simp only [List.foldl_nil, Option.some.injEq] at h
    exact h ▸ hrefl x
  | cons stp l ih =>
    intro x r h
    simp only [List.foldl_cons, Option.some_bind] at h
    cases hu : f stp x with
    | none =>
      rw [hu, foldl_bind_none] at h
      exact absurd h (by simp)
    | some y =>
      rw [hu] at h
      exact htrans r y x (ih y r h) (hstep stp x y hu)

lemma rf2_update_le {V : Type} [DecidableEq V] (ops : ColorOps V) (cfg : RF2Cfg)
    (ratio : ℚ) (c0 c1 : Candidates V) (r' : ℚ)
    (h : RelationFactory2.updateRatioToTrichromacy ops cfg ratio c0 c1 = some r') :
    r' = ratio ∨ r' < ratio := by
  unfold RelationFactory2.updateRatioToTrichromacy at h
  split at h
  · simp only [Option.some.injEq] at h
    split at h
    · rename_i hlt
      exact Or.inr (h ▸ hlt)
    · exact Or.inl h.symm
  · simp at h

lemma rf3_update_le {V : Type} [DecidableEq V] (ops : ColorOps V) (cfg : RF3Cfg)
    (st : RF3Ratios) (c0 c1 : Candidates V) (st' : RF3Ratios)
    (h : RelationFactory3.updateRatioToTrichromacy ops cfg st c0 c1 = some st') :
    (st'.rP = st.rP ∨ st'.rP < st.rP)
    ∧ (st'.rD = st.rD ∨ st'.rD < st.rD)
    ∧ (st'.rM = st.rM ∨ st'.rM < st.rM) := by
  unfold RelationFactory3.updateRatioToTrichromacy at h
  split at h
  · simp only [Option.some.injEq] at h
    subst h
    refine ⟨?_, ?_, ?_⟩ <;> dsimp only <;> split
    · rename_i hlt; exact Or.inr hlt
    · exact Or.inl rfl
    · rename_i hlt; exact Or.inr hlt
    · exact Or.inl rfl
    · rename_i hlt; exact Or.inr hlt
    · exact Or.inl rfl
  · simp at h

/-- Claim C7 (confirmed). For both ratio-mode variants: starting from the
initial ratio 1, any sequence of relation creations leaves the ratio(s) at
most 1; extending the sequence can only lower them (monotone non-increasing);
and a single update either keeps the stored value or replaces it with a
strictly smaller one. -/
theorem C7_ratio_updates_monotone {V : Type} [DecidableEq V]
    (ops : ColorOps V) (cfg2 : RF2Cfg) (cfg3 : RF3Cfg)
    (steps rest : List (Candidates V × Candidates V)) :
    (∀ r, RelationFactory2.ratioAfter ops cfg2 steps 1 = some r → r ≤ 1)
    ∧ (∀ r1 r2, RelationFactory2.ratioAfter ops cfg2 steps 1 = some r1 →
        RelationFactory2.ratioAfter ops cfg2 (steps ++ rest) 1 = some r2 → r2 ≤ r1)
    ∧ (∀ ratio c0 c1 r',
        RelationFactory2.updateRatioToTrichromacy ops cfg2 ratio c0 c1 = some r' →
        r' ≤ ratio ∧ (r' ≠ ratio → r' < ratio))
    ∧ (∀ st, RelationFactory3.ratiosAfter ops cfg3 steps ⟨1, 1, 1⟩ = some st →
        st.rP ≤ 1 ∧ st.rD ≤ 1 ∧ st.rM ≤ 1)
    ∧ (∀ st1 st2, RelationFactory3.ratiosAfter ops cfg3 steps ⟨1, 1, 1⟩ = some st1 →
        RelationFactory3.ratiosAfter ops cfg3 (steps ++ rest) ⟨1, 1, 1⟩ = some st2 →
        st2.rP ≤ st1.rP ∧ st2.rD ≤ st1.rD ∧ st2.rM ≤ st1.rM)
    ∧ (∀ st c0 c1 st',
        RelationFactory3.updateRatioToTrichromacy ops cfg3 st c0 c1 = some st' →
        (st'.rP ≤ st.rP ∧ (st'.rP ≠ st.rP → st'.rP < st.rP))
        ∧ (st'.rD ≤ st.rD ∧ (st'.rD ≠ st.rD → st'.rD < st.rD))
        ∧ (st'.rM ≤ st.rM ∧ (st'.rM ≠ st.rM → st'.rM < st.rM))) := by
  have h2le : ∀ (l : List (Candidates V × Candidates V)) (x r : ℚ),
      RelationFactory2.ratioAfter ops cfg2 l x = some r → r ≤ x := by
    intro l x r h
    unfold RelationFactory2.ratioAfter at h
    refine foldl_bind_le
      (fun stp r => RelationFactory2.updateRatioToTrichromacy ops cfg2 r stp.1 stp.2)
      (· ≤ ·) le_refl (fun a b c => le_trans) ?_ l x r h
    intro stp a b hb
    rcases rf2_update_le ops cfg2 a stp.1 stp.2 b hb with he | hlt
    · exact le_of_eq he
    · exact le_of_lt hlt
  have le3 : RF3Ratios → RF3Ratios → Prop :=
    fun a b => a.rP ≤ b.rP ∧ a.rD ≤ b.rD ∧ a.rM ≤ b.rM
  have h3le : ∀ (l : List (Candidates V × Candidates V)) (x r : RF3Ratios),
      RelationFactory3.ratiosAfter ops cfg3 l x = some r →
        r.rP ≤ x.rP ∧ r.rD ≤ x.rD ∧ r.rM ≤ x.rM := by
    intro l x r h
    unfold RelationFactory3.ratiosAfter at h
    refine foldl_bind_le
      (fun stp st => RelationFactory3.updateRatioToTrichromacy ops cfg3 st stp.1 stp.2)
      (fun a b => a.rP ≤ b.rP ∧ a.rD ≤ b.rD ∧ a.rM ≤ b.rM)
      (fun a => ⟨le_refl _, le_refl _, le_refl _⟩)
      (fun a b c hab hbc =>
        ⟨le_trans hab.1 hbc.1, le_trans hab.2.1 hbc.2.1, le_trans hab.2.2 hbc.2.2⟩)
      ?_ l x r h
    intro stp a b hb
    obtain ⟨hP, hD, hM⟩ := rf3_update_le ops cfg3 a stp.1 stp.2 b hb
    refine ⟨?_, ?_, ?_⟩
    · rcases hP with he | hlt
      · exact le_of_eq he
      · exact le_of_lt hlt
    · rcases hD with he | hlt
      · exact le_of_eq he
      · exact le_of_lt hlt
    · rcases hM with he | hlt
      · exact le_of_eq he
      · exact le_of_lt hlt
  refine ⟨fun r h => h2le steps 1 r h, ?_, ?_, fun st h => h3le steps ⟨1, 1, 1⟩ st h, ?_, ?_⟩
  · intro r1 r2 h1 h2
    unfold RelationFactory2.ratioAfter at h1 h2
    rw [List.foldl_append, h1] at h2
    exact h2le rest r1 r2 h2
  · intro ratio c0 c1 r' h
    rcases rf2_update_le ops cfg2 ratio c0 c1 r' h with he | hlt
    · exact ⟨le_of_eq he, fun hne => absurd he hne⟩
    · exact ⟨le_of_lt hlt, fun _ => hlt⟩
  · intro st1 st2 h1 h2
    unfold RelationFactory3.ratiosAfter at h1 h2
    rw [List.foldl_append, h1] at h2
    exact h3le rest st1 st2 h2
  · intro st c0 c1 st' h
    obtain ⟨hP, hD, hM⟩ := rf3_update_le ops cfg3 st c0 c1 st' h
    refine ⟨⟨?_, ?_⟩, ⟨?_, ?_⟩, ⟨?_, ?_⟩⟩
    · rcases hP with he | hlt
      · exact le_of_eq he
      · exact le_of_lt hlt
    · intro hne
      rcases hP with he | hlt
      · exact absurd he hne
      · exact hlt
    · rcases hD with he | hlt
      · exact le_of_eq he
      · exact le_of_lt hlt
    · intro hne
      rcases hD with he | hlt
      · exact absurd he hne
      · exact hlt
    · rcases hM with he | hlt
      · exact le_of_eq he
      · exact le_of_lt hlt
    · intro hne
      rcases hM with he | hlt
      · exact absurd he hne
      · exact hlt

/-- Color service for the C7 witness: trichromatic distance 2 between distinct
values, other distances 1. -/
def c7Ops : ColorOps ℕ :=
  ⟨fun _ => none,
   fun _ => 0,
   fun _ => ⟨0, 0, 0⟩,
   fun _ => ⟨0, 0, 0⟩,
   fun v _ => (v : ℤ),
   fun v w vis => if v = w then 0 else (match vis with
     | Vision.TRICHROMACY => 2
     | _ => 1),
   fun _ => 0,
   fun q => q⟩

/-- Variant-2 configuration for the C7 witness: check protanopia only,
preservation off. -/
def c7Cfg2 : RF2Cfg := ⟨true, false, false, false, 0, 0, false, 0, 0⟩

/-- Variant-3 configuration for the C7 witness. -/
def c7Cfg3 : RF3Cfg := ⟨true, false, false, false, JSNum.num 0, JSNum.num 0, false, JSNum.nan, 0⟩

/-- A single relation creation between singleton domains with set originals. -/
def c7Steps : List (Candidates ℕ × Candidates ℕ) :=
  [(⟨JSVal.value 0, [0]⟩, ⟨JSVal.value 1, [1]⟩)]

/-- Witness for C7: one concrete update lowers the variant-2 ratio from 1 to
1/2 and the variant-3 ratios from (1,1,1) to (1/2, 0, 0); the theorem bounds
both runs by the start values. -/
theorem C7_ratio_updates_monotone_witness :
    RelationFactory2.ratioAfter c7Ops c7Cfg2 c7Steps 1 = some (1/2)
    ∧ ((1 : ℚ)/2) ≤ 1
    ∧ RelationFactory3.ratiosAfter c7Ops c7Cfg3 c7Steps ⟨1, 1, 1⟩ = some ⟨1/2, 0, 0⟩
    ∧ ((RF3Ratios.mk (1/2) 0 0).rP ≤ 1 ∧ (RF3Ratios.mk (1/2) 0 0).rD ≤ 1
        ∧ (RF3Ratios.mk (1/2) 0 0).rM ≤ 1) := by
  have h2 : RelationFactory2.ratioAfter c7Ops c7Cfg2 c7Steps 1 = some (1/2) := by
    norm_num [RelationFactory2.ratioAfter, RelationFactory2.updateRatioToTrichromacy,
      RelationFactory2.scanMaxDiff, RelationFactory2.preScale, c7Ops, c7Cfg2, c7Steps,
      Candidates.getOriginal, jsIndex]
  have h3 : RelationFactory3.ratiosAfter c7Ops c7Cfg3 c7Steps ⟨1, 1, 1⟩ = some ⟨1/2, 0, 0⟩ := by
    norm_num [RelationFactory3.ratiosAfter, RelationFactory3.updateRatioToTrichromacy,
      RelationFactory3.scanMaxDiffs, RelationFactory3.preScale, c7Ops, c7Cfg3, c7Steps,
      Candidates.getOriginal, jsIndex, jsLt]
  exact ⟨h2,
    (C7_ratio_updates_monotone c7Ops c7Cfg2 c7Cfg3 c7Steps []).1 (1/2) h2,
    h3,
    (C7_ratio_updates_monotone c7Ops c7Cfg2 c7Cfg3 c7Steps []).2.2.2.1 ⟨1/2, 0, 0⟩ h3⟩

/-- Embedding of the inner `Combination` class of scheme.ts. -/
structure Combination where
  index1 : ℕ
  c1 : ℤ
  index2 : ℕ
  c2 : ℤ
  diff : ℚ
  vision : Vision
deriving DecidableEq, Repr

/-- The combination built for table row `i`, neighbor `j` and vision `vis`. -/
def Scheme.mkCombination {V : Type} [Inhabited V] (s : Scheme V) (ops : ColorOps V)
    (i j : ℕ) (vis : Vision) : Combination :=
  ⟨i, ops.visInt (s.valAt i) vis, j, ops.visInt (s.valAt j) vis,
   s.getDifference ops i j vis, vis⟩

/-- One iteration of the `addCombinations` loops: skip when `i >= j`, else push
the combination and keep the running lowest (`lowDiff == null || diff <
lowDiff.diff`). -/
def Scheme.comboStep {V : Type} [Inhabited V] (s : Scheme V) (ops : ColorOps V)
    (vis : Vision) (acc : List Combination × Option Combination) (i j : ℕ) :
    List Combination × Option Combination :=
  if j ≤ i then acc
  else
    let c := s.mkCombination ops i j vis
    (acc.1 ++ [c],
     match acc.2 with
     | none => some c
     | some lo => if c.diff < lo.diff then some c else some lo)

/-- `Scheme.addCombinations(table, vis, dest)`: iterate rows and neighbors,
returning the appended combinations and the lowest-difference one. -/
def Scheme.addCombinations {V : Type} [Inhabited V] (s : Scheme V) (ops : ColorOps V)
    (table : List (List ℕ)) (vis : Vision) :
    List Combination × Option Combination :=
  (List.range table.length).foldl
    (fun acc i => (table.getD i []).foldl (fun acc j => s.comboStep ops vis acc i j) acc)
    ([], none)

/-- The per-vision lowest-difference combination (`#lowDiffT/P/D/M`), computed
as `#createAllCombinationList` does over `getAdjacencyTable()`. -/
def Scheme.lowDiffFor {V : Type} [Inhabited V] (s : Scheme V) (ops : ColorOps V)
    (vis : Vision) : Option Combination :=
  (s.addCombinations ops (s.getAdjacencyTable (-1)) vis).2

/-- `getLowestDifferenceCombination(null)`: the `null === vis` branch — start
from the trichromatic lowest and replace only on strictly smaller difference,
in the order P, D, M. (The four fields would be JS `null` and the branch would
throw on a scheme without adjacency pairs; that is the `none` case.) -/
def Scheme.getLowestDifferenceCombinationNone {V : Type} [Inhabited V]
    (s : Scheme V) (ops : ColorOps V) : Option Combination :=
  match s.lowDiffFor ops Vision.TRICHROMACY, s.lowDiffFor ops Vision.PROTANOPIA,
        s.lowDiffFor ops Vision.DEUTERANOPIA, s.lowDiffFor ops Vision.MONOCHROMACY with
  | some t, some p, some d, some m =>
    let com := t
    let com := if p.diff < com.diff then p else com
    let com := if d.diff < com.diff then d else com
    let com := if m.diff < com.diff then m else com
    some com
  | _, _, _, _ => none

/-- The combinations of one table row, as a filtered map. -/
def Scheme.combosRow {V : Type} [Inhabited V] (s : Scheme V) (ops : ColorOps V)
    (vis : Vision) (i : ℕ) (row : List ℕ) : List Combination :=
  (row.filter (fun j => decide (¬ j ≤ i))).map (fun j => s.mkCombination ops i j vis)

/-- All combinations produced by `addCombinations`, row by row. -/
def Scheme.combosAll {V : Type} [Inhabited V] (s : Scheme V) (ops : ColorOps V)
    (table : List (List ℕ)) (vis : Vision) : List Combination :=
  ((List.range table.length).map (fun i => s.combosRow ops vis i (table.getD i []))).flatten

/-- One lowest-difference update (`lowDiff == null || diff < lowDiff.diff`). -/
def minStep (lo : Option Combination) (c : Combination) : Option Combination :=
  match lo with
  | none => some c
  | some lo => if c.diff < lo.diff then some c else some lo

/-- Running lowest of a combination list (first strict minimum wins). -/
def lowestOf (l : List Combination) : Option Combination :=
  l.foldl minStep none

/-- The differences of the scheme's adjacency pairs under one vision, in pair
order — the claim's notion of "all adjacent pairs". -/
def Scheme.visDiffs {V : Type} [Inhabited V] (s : Scheme V) (ops : ColorOps V)
    (vis : Vision) : List ℚ :=
  s.ads.map (fun p => s.getDifference ops p.1 p.2 vis)

/-- The pair differences across all four visions. -/
def Scheme.allVisDiffs {V : Type} [Inhabited V] (s : Scheme V) (ops : ColorOps V) : List ℚ :=
  s.visDiffs ops Vision.TRICHROMACY ++ s.visDiffs ops Vision.PROTANOPIA
    ++ s.visDiffs ops Vision.DEUTERANOPIA ++ s.visDiffs ops Vision.MONOCHROMACY

lemma comboRow_fold {V : Type} [Inhabited V] (s : Scheme V) (ops : ColorOps V)
    (vis : Vision) (i : ℕ) :
    ∀ (row : List ℕ) (acc : List Combination × Option Combination),
      row.foldl (fun acc j => s.comboStep ops vis acc i j) acc
        = (acc.1 ++ s.combosRow ops vis i row,
           (s.combosRow ops vis i row).foldl minStep acc.2) := by
  intro row
  induction row with
  | nil => intro acc; simp [Scheme.combosRow]
  | cons j row ih =>
    intro acc
    simp only [List.foldl_cons]
    by_cases hji : j ≤ i
    · rw [ih]
      have hfilter : s.combosRow ops vis i (j :: row) = s.combosRow ops vis i row := by
        simp [Scheme.combosRow, List.filter_cons, hji]
      rw [hfilter]
      simp [Scheme.comboStep, hji]
    · have hij : i < j := Nat.lt_of_not_le hji
      have hfilter : s.combosRow ops vis i (j :: row)
          = s.mkCombination ops i j vis :: s.combosRow ops vis i row := by
        simp [Scheme.combosRow, List.filter_cons, hji, hij]
      rw [ih, hfilter]
      simp only [List.foldl_cons]
      unfold Scheme.comboStep
      simp only [hji, if_neg, if_false]
      simp [minStep, List.append_assoc]

lemma comboRows_fold {V : Type} [Inhabited V] (s : Scheme V) (ops : ColorOps V)
    (vis : Vision) (table : List (List ℕ)) :
    ∀ (idxs : List ℕ) (acc : List Combination × Option Combination),
      idxs.foldl
        (fun acc i => (table.getD i []).foldl (fun acc j => s.comboStep ops vis acc i j) acc)
        acc
      = (acc.1 ++ (idxs.map (fun i => s.combosRow ops vis i (table.getD i []))).flatten,
         ((idxs.map (fun i => s.combosRow ops vis i (table.getD i []))).flatten).foldl minStep acc.2) := by
  intro idxs
  induction idxs with
  | nil => intro acc; simp
  | cons i idxs ih =>
    intro acc
    simp only [List.foldl_cons, List.map_cons, List.flatten_cons]
    rw [comboRow_fold, ih]
    simp [List.foldl_append]

lemma addCombinations_eq {V : Type} [Inhabited V] (s : Scheme V) (ops : ColorOps V)
    (table : List (List ℕ)) (vis : Vision) :
    s.addCombinations ops table vis
      = (s.combosAll ops table vis, lowestOf (s.combosAll ops table vis)) := by
  unfold Scheme.addCombinations Scheme.combosAll lowestOf
  rw [comboRows_fold]
  simp

lemma minStep_fold_spec :
    ∀ (l : List Combination) (m : Combination),
      ∃ c, l.foldl minStep (some m) = some c
        ∧ (c = m ∨ c ∈ l) ∧ c.diff ≤ m.diff ∧ ∀ x ∈ l, c.diff ≤ x.diff := by
  intro l
  induction l with
  | nil =>
    intro m
    exact ⟨m, rfl, Or.inl rfl, le_refl _, by simp⟩
  | cons x l ih =>
    intro m
    simp only [List.foldl_cons]
    by_cases hx : x.diff < m.diff
    · have hms : minStep (some m) x = some x := by simp [minStep, hx]
      rw [hms]
      obtain ⟨c, hc, hmem, hle, hall⟩ := ih x
      refine ⟨c, hc, ?_, le_trans hle (le_of_lt hx), ?_⟩
      · rcases hmem with rfl | hmem
        · exact Or.inr (List.mem_cons_self _ _)
        · exact Or.inr (List.mem_cons_of_mem _ hmem)
      · intro y hy
        rcases List.mem_cons.mp hy with rfl | hy
        · exact hle
        · exact hall y hy
    · have hms : minStep (some m) x = some m := by simp [minStep, hx]
      rw [hms]
      obtain ⟨c, hc, hmem, hle, hall⟩ := ih m
      refine ⟨c, hc, ?_, hle, ?_⟩
      · rcases hmem with rfl | hmem
        · exact Or.inl rfl
        · exact Or.inr (List.mem_cons_of_mem _ hmem)
      · intro y hy
        rcases List.mem_cons.mp hy with rfl | hy
        · exact le_trans hle (le_of_not_lt hx)
        · exact hall y hy

lemma lowestOf_spec (l : List Combination) (hne : l ≠ []) :
    ∃ c, lowestOf l = some c ∧ c ∈ l ∧ ∀ x ∈ l, c.diff ≤ x.diff := by
  cases l with
  | nil => exact absurd rfl hne
  | cons x l =>
    unfold lowestOf
    simp only [List.foldl_cons]
    have hms : minStep none x = some x := rfl
    rw [hms]
    obtain ⟨c, hc, hmem, hle, hall⟩ := minStep_fold_spec l x
    refine ⟨c, hc, ?_, ?_⟩
    · rcases hmem with rfl | hmem
      · exact List.mem_cons_self _ _
      · exact List.mem_cons_of_mem _ hmem
    · intro y hy
      rcases List.mem_cons.mp hy with rfl | hy
      · exact hle
      · exact hall y hy

lemma mem_combosRow {V : Type} [Inhabited V] (s : Scheme V) (ops : ColorOps V)
    (vis : Vision) (i : ℕ) (row : List ℕ) (c : Combination) :
    c ∈ s.combosRow ops vis i row
      ↔ ∃ j ∈ row, i < j ∧ c = s.mkCombination ops i j vis := by
  simp only [Scheme.combosRow, List.mem_map, List.mem_filter, decide_eq_true_eq, Nat.not_le]
  constructor
  · rintro ⟨j, ⟨hj, hij⟩, rfl⟩
    exact ⟨j, hj, hij, rfl⟩
  · rintro ⟨j, hj, hij, rfl⟩
    exact ⟨j, ⟨hj, hij⟩, rfl⟩

lemma mem_combosAll {V : Type} [Inhabited V] (s : Scheme V) (ops : ColorOps V)
    (table : List (List ℕ)) (vis : Vision) (c : Combination) :
    c ∈ s.combosAll ops table vis
      ↔ ∃ i, i < table.length ∧ ∃ j ∈ table.getD i [], i < j ∧ c = s.mkCombination ops i j vis := by
  simp only [Scheme.combosAll, List.mem_flatten, List.mem_map, List.mem_range]
  constructor
  · rintro ⟨l, ⟨i, hi, rfl⟩, hc⟩
    obtain ⟨j, hj, hij, rfl⟩ := (mem_combosRow s ops vis i _ _).mp hc
    exact ⟨i, hi, j, hj, hij, rfl⟩
  · rintro ⟨i, hi, j, hj, hij, rfl⟩
    exact ⟨s.combosRow ops vis i (table.getD i []), ⟨i, hi, rfl⟩,
      (mem_combosRow s ops vis i _ _).mpr ⟨j, hj, hij, rfl⟩⟩

lemma adjRow_fold_mem (ω : ℤ) (i : ℕ) :
    ∀ (l : List (ℕ × ℕ)) (acc : List ℕ) (x : ℕ),
      (x ∈ l.foldl
        (fun rel p =>
          if ((p.1 : ℤ) = ω ∨ (p.2 : ℤ) = ω) then rel
          else if p.1 = i then rel ++ [p.2]
          else if p.2 = i then rel ++ [p.1]
          else rel)
        acc
      ↔ x ∈ acc ∨ ∃ p ∈ l, ¬((p.1 : ℤ) = ω ∨ (p.2 : ℤ) = ω)
          ∧ ((p.1 = i ∧ x = p.2) ∨ (¬ p.1 = i ∧ p.2 = i ∧ x = p.1))) := by
  intro l
  induction l with
  | nil =>
    intro acc x
    simp
  | cons p l ih =>
    intro acc x
    simp only [List.foldl_cons]
    by_cases hω : ((p.1 : ℤ) = ω ∨ (p.2 : ℤ) = ω)
    · rw [if_pos hω, ih]
      constructor
      · rintro (hx | hx)
        · exact Or.inl hx
        · obtain ⟨q, hq, hqω, hqc⟩ := hx
          exact Or.inr ⟨q, List.mem_cons_of_mem _ hq, hqω, hqc⟩
      · rintro (hx | ⟨q, hq, hqω, hqc⟩)
        · exact Or.inl hx
        · rcases List.mem_cons.mp hq with rfl | hq
          · exact absurd hω hqω
          · exact Or.inr ⟨q, hq, hqω, hqc⟩
    · rw [if_neg hω]
      by_cases h1 : p.1 = i
      · rw [if_pos h1, ih]
        simp only [List.mem_append, List.mem_singleton]
        constructor
        · rintro ((hx | rfl) | ⟨q, hq, hqω, hqc⟩)
          · exact Or.inl hx
          · exact Or.inr ⟨p, List.mem_cons_self _ _, hω, Or.inl ⟨h1, rfl⟩⟩
          · exact Or.inr ⟨q, List.mem_cons_of_mem _ hq, hqω, hqc⟩
        · rintro (hx | ⟨q, hq, hqω, hqc⟩)
          · exact Or.inl (Or.inl hx)
          · rcases List.mem_cons.mp hq with rfl | hq
            · rcases hqc with ⟨_, rfl⟩ | ⟨hq1, _, _⟩
              · exact Or.inl (Or.inr rfl)
              · exact absurd h1 hq1
            · exact Or.inr ⟨q, hq, hqω, hqc⟩
      · rw [if_neg h1]
        by_cases h2 : p.2 = i
        · rw [if_pos h2, ih]
          simp only [List.mem_append, List.mem_singleton]
          constructor
          · rintro ((hx | rfl) | ⟨q, hq, hqω, hqc⟩)
            · exact Or.inl hx
            · exact Or.inr ⟨p, List.mem_cons_self _ _, hω, Or.inr ⟨h1, h2, rfl⟩⟩
            · exact Or.inr ⟨q, List.mem_cons_of_mem _ hq, hqω, hqc⟩
          · rintro (hx | ⟨q, hq, hqω, hqc⟩)
            · exact Or.inl (Or.inl hx)
            · rcases List.mem_cons.mp hq with rfl | hq
              · rcases hqc with ⟨hq1, _⟩ | ⟨_, _, rfl⟩
                · exact absurd hq1 h1
                · exact Or.inl (Or.inr rfl)
              · exact Or.inr ⟨q, hq, hqω, hqc⟩
        · rw [if_neg h2, ih]
          constructor
          · rintro (hx | ⟨q, hq, hqω, hqc⟩)
            · exact Or.inl hx
            · exact Or.inr ⟨q, List.mem_cons_of_mem _ hq, hqω, hqc⟩
          · rintro (hx | ⟨q, hq, hqω, hqc⟩)
            · exact Or.inl hx
            · rcases List.mem_cons.mp hq with rfl | hq
              · rcases hqc with ⟨hq1, _⟩ | ⟨_, hq2, _⟩
                · exact absurd hq1 h1
                · exact absurd hq2 h2
              · exact Or.inr ⟨q, hq, hqω, hqc⟩

lemma natCast_ne_negOne (n : ℕ) : ¬ ((n : ℤ) = (-1 : ℤ)) := by omega

lemma mem_getAdjTabRow {V : Type} (s : Scheme V) (i x : ℕ) :
    x ∈ s.getAdjTabRow (-1) i
      ↔ ∃ p ∈ s.ads, ((p.1 = i ∧ x = p.2) ∨ (¬ p.1 = i ∧ p.2 = i ∧ x = p.1)) := by
  unfold Scheme.getAdjTabRow
  rw [adjRow_fold_mem (-1) i s.ads [] x]
  simp only [List.not_mem_nil, false_or]
  constructor
  · rintro ⟨p, hp, _, hc⟩
    exact ⟨p, hp, hc⟩
  · rintro ⟨p, hp, hc⟩
    refine ⟨p, hp, ?_, hc⟩
    rintro (h | h)
    · exact natCast_ne_negOne _ h
    · exact natCast_ne_negOne _ h

lemma adjTable_length {V : Type} (s : Scheme V) (ω : ℤ) :
    (s.getAdjacencyTable ω).length = s.size := by
  simp [Scheme.getAdjacencyTable]

lemma adjTable_getD {V : Type} (s : Scheme V) (ω : ℤ) (i : ℕ) (h : i < s.size) :
    (s.getAdjacencyTable ω).getD i [] = s.getAdjTabRow ω i := by
  unfold Scheme.getAdjacencyTable
  exact getD_map_range _ _ _ h _

lemma combos_sound {V : Type} [Inhabited V] (s : Scheme V) (ops : ColorOps V) (vis : Vision)
    (hvalid : ∀ p ∈ s.ads, p.1 ≠ p.2 ∧ p.1 < s.size ∧ p.2 < s.size)
    (hsym : ∀ a, a < s.size → ∀ b, b < s.size → ∀ w,
      s.getDifference ops a b w = s.getDifference ops b a w)
    (c : Combination) (hc : c ∈ s.combosAll ops (s.getAdjacencyTable (-1)) vis) :
    c.vision = vis ∧ c.diff ∈ s.visDiffs ops vis := by
  obtain ⟨i, hi, j, hj, hij, rfl⟩ := (mem_combosAll s ops _ vis c).mp hc
  rw [adjTable_length] at hi
  rw [adjTable_getD s (-1) i hi] at hj
  obtain ⟨p, hp, hcase⟩ := (mem_getAdjTabRow s i j).mp hj
  obtain ⟨a, b⟩ := p
  have hfst : ((a, b) : ℕ × ℕ).1 = a := rfl
  have hsnd : ((a, b) : ℕ × ℕ).2 = b := rfl
  rw [hfst, hsnd] at hcase
  have hv := hvalid (a, b) hp
  rw [hfst, hsnd] at hv
  obtain ⟨hne, h1, h2⟩ := hv
  refine ⟨rfl, ?_⟩
  refine List.mem_map.mpr ⟨(a, b), hp, ?_⟩
  show s.getDifference ops a b vis = s.getDifference ops i j vis
  rcases hcase with ⟨ha, hb⟩ | ⟨ha, hb, hc2⟩
  · rw [ha, hb]
  · rw [hsym a h1 b h2 vis, hb, hc2]

lemma combos_complete {V : Type} [Inhabited V] (s : Scheme V) (ops : ColorOps V) (vis : Vision)
    (hvalid : ∀ p ∈ s.ads, p.1 ≠ p.2 ∧ p.1 < s.size ∧ p.2 < s.size)
    (hsym : ∀ a, a < s.size → ∀ b, b < s.size → ∀ w,
      s.getDifference ops a b w = s.getDifference ops b a w)
    (p : ℕ × ℕ) (hp : p ∈ s.ads) :
    ∃ c ∈ s.combosAll ops (s.getAdjacencyTable (-1)) vis,
      c.diff = s.getDifference ops p.1 p.2 vis := by
  obtain ⟨a, b⟩ := p
  have hv := hvalid (a, b) hp
  obtain ⟨hne, h1, h2⟩ := hv
  have hne' : a ≠ b := hne
  have h1' : a < s.size := h1
  have h2' : b < s.size := h2
  rcases Nat.lt_or_ge a b with hab | hba
  · refine ⟨s.mkCombination ops a b vis, ?_, rfl⟩
    apply (mem_combosAll s ops _ vis _).mpr
    refine ⟨a, ?_, b, ?_, hab, rfl⟩
    · rw [adjTable_length]
      exact h1'
    · rw [adjTable_getD s (-1) a h1']
      exact (mem_getAdjTabRow s a b).mpr ⟨(a, b), hp, Or.inl ⟨rfl, rfl⟩⟩
  · have hba' : b < a := lt_of_le_of_ne hba (fun h => hne' h.symm)
    refine ⟨s.mkCombination ops b a vis, ?_, ?_⟩
    · apply (mem_combosAll s ops _ vis _).mpr
      refine ⟨b, ?_, a, ?_, hba', rfl⟩
      · rw [adjTable_length]
        exact h2'
      · rw [adjTable_getD s (-1) b h2']
        exact (mem_getAdjTabRow s b a).mpr ⟨(a, b), hp, Or.inr ⟨hne', rfl, rfl⟩⟩
    · show s.getDifference ops b a vis = s.getDifference ops a b vis
      exact hsym b h2' a h1' vis

lemma lowDiffFor_spec {V : Type} [Inhabited V] (s : Scheme V) (ops : ColorOps V) (vis : Vision)
    (hads : s.ads ≠ [])
    (hvalid : ∀ p ∈ s.ads, p.1 ≠ p.2 ∧ p.1 < s.size ∧ p.2 < s.size)
    (hsym : ∀ a, a < s.size → ∀ b, b < s.size → ∀ w,
      s.getDifference ops a b w = s.getDifference ops b a w) :
    ∃ c, s.lowDiffFor ops vis = some c ∧ c.vision = vis
      ∧ c.diff ∈ s.visDiffs ops vis ∧ ∀ q ∈ s.visDiffs ops vis, c.diff ≤ q := by
  have hall_ne : s.combosAll ops (s.getAdjacencyTable (-1)) vis ≠ [] := by
    cases hl : s.ads with
    | nil => exact absurd hl hads
    | cons p rest =>
      have hp : p ∈ s.ads := by rw [hl]; exact List.mem_cons_self _ _
      obtain ⟨c, hc, _⟩ := combos_complete s ops vis hvalid hsym p hp
      intro hnil
      rw [hnil] at hc
      simp at hc
  obtain ⟨c, hc, hmem, hmin⟩ := lowestOf_spec _ hall_ne
  have hlowdiff : s.lowDiffFor ops vis = some c := by
    unfold Scheme.lowDiffFor
    rw [addCombinations_eq]
    exact hc
  obtain ⟨hvis, hdmem⟩ := combos_sound s ops vis hvalid hsym c hmem
  refine ⟨c, hlowdiff, hvis, hdmem, ?_⟩
  intro q hq
  obtain ⟨p, hp, hpq⟩ := List.mem_map.mp hq
  obtain ⟨c2, hc2, hcd⟩ := combos_complete s ops vis hvalid hsym p hp
  have := hmin c2 hc2
  rw [hcd, hpq] at this
  exact this

lemma c9_assemble {V : Type} [Inhabited V] (ops : ColorOps V) (s : Scheme V)
    (cOf : Vision → Combination) (r : Combination)
    (hres : s.getLowestDifferenceCombinationNone ops = some r)
    (hmin : ∀ v, ∀ q ∈ s.visDiffs ops v, (cOf v).diff ≤ q)
    (hrmem : r.diff ∈ s.visDiffs ops r.vision)
    (hrle : ∀ v, r.diff ≤ (cOf v).diff)
    (htie : ∀ v, (cOf v).diff = r.diff → visionOrd r.vision ≤ visionOrd v) :
    ∃ c, s.getLowestDifferenceCombinationNone ops = some c
      ∧ c.diff ∈ s.allVisDiffs ops
      ∧ (∀ q ∈ s.allVisDiffs ops, c.diff ≤ q)
      ∧ c.diff ∈ s.visDiffs ops c.vision
      ∧ (∀ vis, c.diff ∈ s.visDiffs ops vis → visionOrd c.vision ≤ visionOrd vis) := by
  refine ⟨r, hres, ?_, ?_, hrmem, ?_⟩
  · unfold Scheme.allVisDiffs
    simp only [List.mem_append]
    cases hv : r.vision
    · rw [hv] at hrmem
      exact Or.inl (Or.inl (Or.inl hrmem))
    · rw [hv] at hrmem
      exact Or.inl (Or.inl (Or.inr hrmem))
    · rw [hv] at hrmem
      exact Or.inl (Or.inr hrmem)
    · rw [hv] at hrmem
      exact Or.inr hrmem
  · intro q hq
    unfold Scheme.allVisDiffs at hq
    simp only [List.mem_append] at hq
    rcases hq with ((hq | hq) | hq) | hq
    · exact le_trans (hrle Vision.TRICHROMACY) (hmin Vision.TRICHROMACY q hq)
    · exact le_trans (hrle Vision.PROTANOPIA) (hmin Vision.PROTANOPIA q hq)
    · exact le_trans (hrle Vision.DEUTERANOPIA) (hmin Vision.DEUTERANOPIA q hq)
    · exact le_trans (hrle Vision.MONOCHROMACY) (hmin Vision.MONOCHROMACY q hq)
  · intro vis hq
    exact htie vis (le_antisymm (hmin vis r.diff hq) (hrle vis))


/-- Claim C9 (confirmed). For a scheme with at least one adjacency pair (and
valid, self-loop-free indices; the external distance is symmetric),
`getLowestDifferenceCombination(null)` returns a combination whose difference
is the minimum over all adjacent pairs and all four visions, attained under
the combination's own vision, and among the visions attaining that minimum the
returned one is the earliest in the enumeration order T, P, D, M. -/
theorem C9_lowest_combination_across_visions {V : Type} [Inhabited V]
    (ops : ColorOps V) (s : Scheme V)
    (hads : s.ads ≠ [])
    (hvalid : ∀ p ∈ s.ads, p.1 ≠ p.2 ∧ p.1 < s.size ∧ p.2 < s.size)
    (hsym : ∀ a, a < s.size → ∀ b, b < s.size → ∀ w,
      s.getDifference ops a b w = s.getDifference ops b a w) :
    ∃ c, s.getLowestDifferenceCombinationNone ops = some c
      ∧ c.diff ∈ s.allVisDiffs ops
      ∧ (∀ q ∈ s.allVisDiffs ops, c.diff ≤ q)
      ∧ c.diff ∈ s.visDiffs ops c.vision
      ∧ (∀ vis, c.diff ∈ s.visDiffs ops vis → visionOrd c.vision ≤ visionOrd vis) := by
  obtain ⟨cT, hT, hTvis, hTmem, hTmin⟩ :=
    lowDiffFor_spec s ops Vision.TRICHROMACY hads hvalid hsym
  obtain ⟨cP, hP, hPvis, hPmem, hPmin⟩ :=
    lowDiffFor_spec s ops Vision.PROTANOPIA hads hvalid hsym
  obtain ⟨cD, hD, hDvis, hDmem, hDmin⟩ :=
    lowDiffFor_spec s ops Vision.DEUTERANOPIA hads hvalid hsym
  obtain ⟨cM, hM, hMvis, hMmem, hMmin⟩ :=
    lowDiffFor_spec s ops Vision.MONOCHROMACY hads hvalid hsym
  by_cases hc1 : cP.diff < cT.diff
  · by_cases hc2 : cD.diff < cP.diff
    · by_cases hc3 : cM.diff < cD.diff
      ·
        have hres : s.getLowestDifferenceCombinationNone ops = some cM := by
          simp [Scheme.getLowestDifferenceCombinationNone, hT, hP, hD, hM, hc1, hc2, hc3]
        refine c9_assemble ops s
          (fun v => match v with
            | Vision.TRICHROMACY => cT
            | Vision.PROTANOPIA => cP
            | Vision.DEUTERANOPIA => cD
            | Vision.MONOCHROMACY => cM) cM hres ?_ ?_ ?_ ?_
        · intro v
          cases v
          · exact hTmin
          · exact hPmin
          · exact hDmin
          · exact hMmin
        · rw [hMvis]
          exact hMmem
        · intro v
          cases v
          · show cM.diff ≤ cT.diff
            linarith
          · show cM.diff ≤ cP.diff
            linarith
          · show cM.diff ≤ cD.diff
            linarith
          · show cM.diff ≤ cM.diff
            linarith
        · intro v hveq
          cases v
          · exfalso
            have hx : cT.diff = cM.diff := hveq
            linarith
          · exfalso
            have hx : cP.diff = cM.diff := hveq
            linarith
          · exfalso
            have hx : cD.diff = cM.diff := hveq
            linarith
          · rw [hMvis]
      ·
        have hres : s.getLowestDifferenceCombinationNone ops = some cD := by
          simp [Scheme.getLowestDifferenceCombinationNone, hT, hP, hD, hM, hc1, hc2, hc3]
        have hn3 := le_of_not_lt hc3
        refine c9_assemble ops s
          (fun v => match v with
            | Vision.TRICHROMACY => cT
            | Vision.PROTANOPIA => cP
            | Vision.DEUTERANOPIA => cD
            | Vision.MONOCHROMACY => cM) cD hres ?_ ?_ ?_ ?_
        · intro v
          cases v
          · exact hTmin
          · exact hPmin
          · exact hDmin
          · exact hMmin
        · rw [hDvis]
          exact hDmem
        · intro v
          cases v
          · show cD.diff ≤ cT.diff
            linarith
          · show cD.diff ≤ cP.diff
            linarith
          · show cD.diff ≤ cD.diff
            linarith
          · show cD.diff ≤ cM.diff
            linarith
        · intro v hveq
          cases v
          · exfalso
            have hx : cT.diff = cD.diff := hveq
            linarith
          · exfalso
            have hx : cP.diff = cD.diff := hveq
            linarith
          · rw [hDvis]
          · rw [hDvis]
            norm_num [visionOrd]
    · by_cases hc3 : cM.diff < cP.diff
      ·
        have hres : s.getLowestDifferenceCombinationNone ops = some cM := by
          simp [Scheme.getLowestDifferenceCombinationNone, hT, hP, hD, hM, hc1, hc2, hc3]
        have hn2 := le_of_not_lt hc2
        refine c9_assemble ops s
          (fun v => match v with
            | Vision.TRICHROMACY => cT
            | Vision.PROTANOPIA => cP
            | Vision.DEUTERANOPIA => cD
            | Vision.MONOCHROMACY => cM) cM hres ?_ ?_ ?_ ?_
        · intro v
          cases v
          · exact hTmin
          · exact hPmin
          · exact hDmin
          · exact hMmin
        · rw [hMvis]
          exact hMmem
        · intro v
          cases v
          · show cM.diff ≤ cT.diff
            linarith
          · show cM.diff ≤ cP.diff
            linarith
          · show cM.diff ≤ cD.diff
            linarith
          · show cM.diff ≤ cM.diff
            linarith
        · intro v hveq
          cases v
          · exfalso
            have hx : cT.diff = cM.diff := hveq
            linarith
          · exfalso
            have hx : cP.diff = cM.diff := hveq
            linarith
          · exfalso
            have hx : cD.diff = cM.diff := hveq
            linarith
          · rw [hMvis]
      ·
        have hres : s.getLowestDifferenceCombinationNone ops = some cP := by
          simp [Scheme.getLowestDifferenceCombinationNone, hT, hP, hD, hM, hc1, hc2, hc3]
        have hn2 := le_of_not_lt hc2
        have hn3 := le_of_not_lt hc3
        refine c9_assemble ops s
          (fun v => match v with
            | Vision.TRICHROMACY => cT
            | Vision.PROTANOPIA => cP
            | Vision.DEUTERANOPIA => cD
            | Vision.MONOCHROMACY => cM) cP hres ?_ ?_ ?_ ?_
        · intro v
          cases v
          · exact hTmin
          · exact hPmin
          · exact hDmin
          · exact hMmin
        · rw [hPvis]
          exact hPmem
        · intro v
          cases v
          · show cP.diff ≤ cT.diff
            linarith
          · show cP.diff ≤ cP.diff
            linarith
          · show cP.diff ≤ cD.diff
            linarith
          · show cP.diff ≤ cM.diff
            linarith
        · intro v hveq
          cases v
          · exfalso
            have hx : cT.diff = cP.diff := hveq
            linarith
          · rw [hPvis]
          · rw [hPvis]
            norm_num [visionOrd]
          · rw [hPvis]
            norm_num [visionOrd]
  · by_cases hc2 : cD.diff < cT.diff
    · by_cases hc3 : cM.diff < cD.diff
      ·
        have hres : s.getLowestDifferenceCombinationNone ops = some cM := by
          simp [Scheme.getLowestDifferenceCombinationNone, hT, hP, hD, hM, hc1, hc2, hc3]
        have hn1 := le_of_not_lt hc1
        refine c9_assemble ops s
          (fun v => match v with
            | Vision.TRICHROMACY => cT
            | Vision.PROTANOPIA => cP
            | Vision.DEUTERANOPIA => cD
            | Vision.MONOCHROMACY => cM) cM hres ?_ ?_ ?_ ?_
        · intro v
          cases v
          · exact hTmin
          · exact hPmin
          · exact hDmin
          · exact hMmin
        · rw [hMvis]
          exact hMmem
        · intro v
          cases v
          · show cM.diff ≤ cT.diff
            linarith
          · show cM.diff ≤ cP.diff
            linarith
          · show cM.diff ≤ cD.diff
            linarith
          · show cM.diff ≤ cM.diff
            linarith
        · intro v hveq
          cases v
          · exfalso
            have hx : cT.diff = cM.diff := hveq
            linarith
          · exfalso
            have hx : cP.diff = cM.diff := hveq
            linarith
          · exfalso
            have hx : cD.diff = cM.diff := hveq
            linarith
          · rw [hMvis]
      ·
        have hres : s.getLowestDifferenceCombinationNone ops = some cD := by
          simp [Scheme.getLowestDifferenceCombinationNone, hT, hP, hD, hM, hc1, hc2, hc3]
        have hn1 := le_of_not_lt hc1
        have hn3 := le_of_not_lt hc3
        refine c9_assemble ops s
          (fun v => match v with
            | Vision.TRICHROMACY => cT
            | Vision.PROTANOPIA => cP
            | Vision.DEUTERANOPIA => cD
            | Vision.MONOCHROMACY => cM) cD hres ?_ ?_ ?_ ?_
        · intro v
          cases v
          · exact hTmin
          · exact hPmin
          · exact hDmin
          · exact hMmin
        · rw [hDvis]
          exact hDmem
        · intro v
          cases v
          · show cD.diff ≤ cT.diff
            linarith
          · show cD.diff ≤ cP.diff
            linarith
          · show cD.diff ≤ cD.diff
            linarith
          · show cD.diff ≤ cM.diff
            linarith
        · intro v hveq
          cases v
          · exfalso
            have hx : cT.diff = cD.diff := hveq
            linarith
          · exfalso
            have hx : cP.diff = cD.diff := hveq
            linarith
          · rw [hDvis]
          · rw [hDvis]
            norm_num [visionOrd]
    · by_cases hc3 : cM.diff < cT.diff
      ·
        have hres : s.getLowestDifferenceCombinationNone ops = some cM := by
          simp [Scheme.getLowestDifferenceCombinationNone, hT, hP, hD, hM, hc1, hc2, hc3]
        have hn1 := le_of_not_lt hc1
        have hn2 := le_of_not_lt hc2
        refine c9_assemble ops s
          (fun v => match v with
            | Vision.TRICHROMACY => cT
            | Vision.PROTANOPIA => cP
            | Vision.DEUTERANOPIA => cD
            | Vision.MONOCHROMACY => cM) cM hres ?_ ?_ ?_ ?_
        · intro v
          cases v
          · exact hTmin
          · exact hPmin
          · exact hDmin
          · exact hMmin
        · rw [hMvis]
          exact hMmem
        · intro v
          cases v
          · show cM.diff ≤ cT.diff
            linarith
          · show cM.diff ≤ cP.diff
            linarith
          · show cM.diff ≤ cD.diff
            linarith
          · show cM.diff ≤ cM.diff
            linarith
        · intro v hveq
          cases v
          · exfalso
            have hx : cT.diff = cM.diff := hveq
            linarith
          · exfalso
            have hx : cP.diff = cM.diff := hveq
            linarith
          · exfalso
            have hx : cD.diff = cM.diff := hveq
            linarith
          · rw [hMvis]
      ·
        have hres : s.getLowestDifferenceCombinationNone ops = some cT := by
          simp [Scheme.getLowestDifferenceCombinationNone, hT, hP, hD, hM, hc1, hc2, hc3]
        have hn1 := le_of_not_lt hc1
        have hn2 := le_of_not_lt hc2
        have hn3 := le_of_not_lt hc3
        refine c9_assemble ops s
          (fun v => match v with
            | Vision.TRICHROMACY => cT
            | Vision.PROTANOPIA => cP
            | Vision.DEUTERANOPIA => cD
            | Vision.MONOCHROMACY => cM) cT hres ?_ ?_ ?_ ?_
        · intro v
          cases v
          · exact hTmin
          · exact hPmin
          · exact hDmin
          · exact hMmin
        · rw [hTvis]
          exact hTmem
        · intro v
          cases v
          · show cT.diff ≤ cT.diff
            linarith
          · show cT.diff ≤ cP.diff
            linarith
          · show cT.diff ≤ cD.diff
            linarith
          · show cT.diff ≤ cM.diff
            linarith
        · intro v hveq
          cases v
          · rw [hTvis]
          · rw [hTvis]
            norm_num [visionOrd]
          · rw [hTvis]
            norm_num [visionOrd]
          · rw [hTvis]
            norm_num [visionOrd]

/-- Color service for the C9 witness: distance between the two distinct values
is 3 (T), 1 (P), 2 (D) and 1 (M) — the minimum 1 is attained by both P and M,
so the tie must resolve to PROTANOPIA. -/
def c9Ops : ColorOps ℕ :=
  ⟨fun _ => none,
   fun _ => 0,
   fun _ => ⟨0, 0, 0⟩,
   fun _ => ⟨0, 0, 0⟩,
   fun v _ => (v : ℤ),
   fun v w vis => if v = w then 0 else (match vis with
     | Vision.TRICHROMACY => 3
     | Vision.PROTANOPIA => 1
     | Vision.DEUTERANOPIA => 2
     | Vision.MONOCHROMACY => 1),
   fun _ => 0,
   fun q => q⟩

/-- Two-color scheme with one adjacency pair for the C9 witness. -/
def c9Scheme : Scheme ℕ := ⟨[0, 1], [(0, 1)], [false, false], 1⟩

/-- Witness for C9 at the concrete two-color scheme. -/
theorem C9_lowest_combination_across_visions_witness :
    (c9Scheme.ads ≠ []
      ∧ (∀ p ∈ c9Scheme.ads, p.1 ≠ p.2 ∧ p.1 < c9Scheme.size ∧ p.2 < c9Scheme.size)
      ∧ (∀ a, a < c9Scheme.size → ∀ b, b < c9Scheme.size → ∀ w,
          c9Scheme.getDifference c9Ops a b w = c9Scheme.getDifference c9Ops b a w))
    ∧ (∃ c, c9Scheme.getLowestDifferenceCombinationNone c9Ops = some c
        ∧ c.diff ∈ c9Scheme.allVisDiffs c9Ops
        ∧ (∀ q ∈ c9Scheme.allVisDiffs c9Ops, c.diff ≤ q)
        ∧ c.diff ∈ c9Scheme.visDiffs c9Ops c.vision
        ∧ (∀ vis, c.diff ∈ c9Scheme.visDiffs c9Ops vis →
            visionOrd c.vision ≤ visionOrd vis)) :=
  ⟨by decide,
   C9_lowest_combination_across_visions c9Ops c9Scheme (by decide) (by decide) (by decide)⟩

/-- Terminal behaviour of the external `Solver.solve()` call inside `adjust`:
it returns `true`, returns `false` (no solution), or throws. -/
inductive SolverEnd where
  | solvedTrue : SolverEnd
  | solvedFalse : SolverEnd
  | threw : SolverEnd
deriving DecidableEq, Repr

/-- The statements `RelationFactory2.newInstance` executes at relation-creation
time, before returning the closure: the conditional
`#updateRatioToTrichromacy` call (only when `noPreservation` is neither 0 nor
1), the two `getOriginal()` reads, and the dereference
`orig0.differenceFrom(orig1)`. `none` models the thrown `TypeError` when an
original is not an actual `Value` (the dereference happens even when
preservation is skipped). -/
def RelationFactory2.newInstancePrelude {V : Type} [DecidableEq V] (ops : ColorOps V)
    (cfg : RF2Cfg) (ratio : ℚ) (noPreservation : ℤ) (cans0 cans1 : Candidates V) :
    Option ℚ :=
  let afterUpdate : Option ℚ :=
    if noPreservation ≠ 0 ∧ noPreservation ≠ 1 then
      RelationFactory2.updateRatioToTrichromacy ops cfg ratio cans0 cans1
    else some ratio
  afterUpdate.bind (fun ratio2 =>
    match cans0.getOriginal, cans1.getOriginal with
    | JSVal.value _, JSVal.value _ => some ratio2
    | _, _ => none)

/-- `Adjuster.#createProblem()` — the in-core part; the stlics variable and
constraint objects are external. The factory pairing is picked by the
ratio-mode flag, the domains are built, and one relation is created per
adjacency edge that is not fully fixed (`nom` is 0/1 for a fixed side, the
second `if` winning as in the source). In ratio mode each
`RelationFactory2.newInstance` call runs its prelude, which throws (`none`)
when an original is the undefined field; on the traditional path the
`ColorRelation` constructor of `RelationFactory1` only stores the originals
without dereferencing them, so that construction cannot throw in core code. -/
def Adjuster.createProblem {V : Type} [Inhabited V] [DecidableEq V] (ops : ColorOps V)
    (isRatioMode : Bool) (rcfg : RF2Cfg) (dcfg2 : DF2Cfg) (grids2 : ℤ → List Trip)
    (dcfg1 : DF1Cfg) (grids1 : ℕ → List Trip) (s : Scheme V) :
    Option (List (Candidates V)) :=
  if isRatioMode then
    let cans := DomainFactory2.build ops s dcfg2 grids2
    let edges := s.getAdjacencies.filter (fun p => !(s.isFixed p.1 && s.isFixed p.2))
    (edges.foldl
      (fun st p => st.bind (fun ratio =>
        let nom : ℤ := if s.isFixed p.2 then 1 else if s.isFixed p.1 then 0 else -1
        RelationFactory2.newInstancePrelude ops rcfg ratio nom
          (cans.getD p.1 Candidates.new) (cans.getD p.2 Candidates.new)))
      (some 1)).map (fun _ => cans)
  else
    some (DomainFactory1.build ops s dcfg1 grids1)

/-- `Adjuster.adjust(org)` (non-bottleneck branch): build the problem, record
the problem's worst satisfaction degree onto `org`
(`org.setQualityInternally(p.worstSatisfactionDegree())`, the degree itself
being the external parameter `worstSat`), run the solver (replaying the
improved assignments it reports through `#notifyResult`), and return `#mod` on
success or `null` when `solve()` returns `false` or throws — that try/catch
wraps only `s.solve()`. The first component is `org` as left by the call; the
second is `none` when an exception escaped `adjust` itself (the
problem-construction `TypeError`, which happens before `setQualityInternally`
and outside the try/catch) and `some r` when `adjust` returned `r`. -/
def Adjuster.adjust {V σ : Type} [Inhabited V] [DecidableEq V] (ops : ColorOps V)
    (isRatioMode : Bool) (rcfg : RF2Cfg) (dcfg2 : DF2Cfg) (grids2 : ℤ → List Trip)
    (dcfg1 : DF1Cfg) (grids1 : ℕ → List Trip)
    (org : Scheme V) (worstSat : ℚ) (als : List (σ → Scheme V → Bool × σ))
    (reported : List ((ℕ → ℕ) × ℚ)) (outcome : SolverEnd) (st : σ) :
    Scheme V × Option (Option (Scheme V)) :=
  match Adjuster.createProblem ops isRatioMode rcfg dcfg2 grids2 dcfg1 grids1 org with
  | none => (org, none)
  | some cans =>
    let org2 : Scheme V := ⟨org.vals, org.ads, org.fixed, worstSat⟩
    let run := reported.foldl
      (fun (acc : Option (Scheme V) × σ) r =>
        let mbs := Adjuster.notifyResult ops org2 cans als r.1 r.2 acc.2
        (some mbs.1, mbs.2.2))
      ((none : Option (Scheme V)), st)
    match outcome with
    | SolverEnd.solvedTrue => (org2, some run.1)
    | SolverEnd.solvedFalse => (org2, some none)
    | SolverEnd.threw => (org2, some none)

/-- Claim C5 (code bug). In the default configuration (ratio mode): on a
two-color scheme with one adjacency pair and nothing fixed, the domains built
by `DomainFactory2.build(-1)` carry no originals, so the very first
`RelationFactory2.newInstance` dereferences `getOriginal() = undefined` and
`#createProblem()` throws a `TypeError` — before `org.setQualityInternally`
and outside the try/catch that wraps only `s.solve()`. Whatever the solver
would have done, `adjust` neither records the pre-solve baseline (the input
scheme's quality stays 1 even when the baseline would be 1/2) nor returns
`null`: the exception propagates to the caller, contradicting the claim. -/
theorem C5_adjust_typeerror_escapes :
    Adjuster.createProblem cexOps true c7Cfg2 c4DF2Cfg c4Grids2 cexDF1Cfg cexGrids cexScheme
      = none
    ∧ (∀ (worstSat : ℚ) (outcome : SolverEnd),
        Adjuster.adjust cexOps true c7Cfg2 c4DF2Cfg c4Grids2 cexDF1Cfg cexGrids
          cexScheme worstSat ([] : List (Unit → Scheme ℕ → Bool × Unit)) [] outcome ()
        = (cexScheme, none))
    ∧ (Adjuster.adjust cexOps true c7Cfg2 c4DF2Cfg c4Grids2 cexDF1Cfg cexGrids
        cexScheme (1/2) ([] : List (Unit → Scheme ℕ → Bool × Unit)) []
        SolverEnd.threw ()).1.quality = 1 := by
  have hcp : Adjuster.createProblem cexOps true c7Cfg2 c4DF2Cfg c4Grids2 cexDF1Cfg
      cexGrids cexScheme = none := by
    decide
  refine ⟨hcp, ?_, ?_⟩
  · intro worstSat outcome
    unfold Adjuster.adjust
    rw [hcp]
  · unfold Adjuster.adjust
    rw [hcp]
    rfl
